import Mathlib

/-!
Verification development for the pulse-guard review pipeline.

The definitions below are shallow embeddings of the Python source of the
repository (files under `src/backend/...` and `src/pulse_guard/...`).
Python runtime values that flow through the untyped parts of the pipeline
are modelled by the inductive type `PyVal`; Python floats are modelled as
exact rational numbers; code that can raise is modelled with `Option` or
`Except`; external collaborators (the LLM call, the platform HTTP call)
are modelled as explicit oracle arguments.
-/

set_option autoImplicit false

/-- A Python runtime value, as it appears in the untyped dict/list data that
flows through the response-processing pipeline.  `float` carries the exact
rational value of the Python float; `str` carries the text. -/
inductive PyVal where
  | none
  | bool (b : Bool)
  | int (n : Int)
  | float (q : Rat)
  | str (s : String)
  | list (xs : List PyVal)
  | dict (entries : List (String × PyVal))

/-- A Python dict with string keys, as produced by `json.loads` on an object
and as used throughout the review pipeline. -/
def PyDict : Type := List (String × PyVal)

/-- Embeds Python `d.get(key, default)` for a string-keyed dict. -/
def pyGet (d : PyDict) (k : String) (default : PyVal) : PyVal :=
  match List.lookup k d with
  | some v => v
  | Option.none => default

/-- Truncation of a rational toward zero, the behaviour of Python `int()` on a
float. -/
def pyTruncToInt (q : Rat) : Int :=
  if q < 0 then -((-q).floor) else q.floor

/-- Embeds Python `float(s)` restricted to optionally-signed decimal literals
made of digits with an optional fractional part.  Strings outside this
fragment are mapped to `none`, standing for the `ValueError` that
`DataValidator.safe_get_score` catches.  (Python accepts a few more shapes,
such as exponents; every accepted shape still reaches the same clamping code,
so the claims below do not depend on the exact accepted set.) -/
def pyFloatOfString? (s : String) : Option Rat :=
  let chars := s.data
  let (sign, body) :=
    match chars with
    | '-' :: rest => ((-1 : Rat), rest)
    | '+' :: rest => ((1 : Rat), rest)
    | _ => ((1 : Rat), chars)
  let intPart := body.takeWhile Char.isDigit
  let rest := body.dropWhile Char.isDigit
  let digitVal : Char → Nat := fun c => c.toNat - '0'.toNat
  let intVal : Nat := intPart.foldl (fun acc c => acc * 10 + digitVal c) 0
  match rest with
  | [] => if intPart = [] then Option.none else some (sign * intVal)
  | '.' :: fracChars =>
      if fracChars.all Char.isDigit ∧ (intPart ≠ [] ∨ fracChars ≠ []) then
        let fracVal : Nat := fracChars.foldl (fun acc c => acc * 10 + digitVal c) 0
        some (sign * (intVal + (fracVal : Rat) / ((10 : Rat) ^ fracChars.length)))
      else Option.none
  | _ => Option.none

/-- Embeds `ReviewConfig.DEFAULT_SCORES["overall_score"]` from
`src/backend/agent/config/review_config.py`: the default score 80. -/
def DEFAULT_SCORE : Int := 80

/-- Embeds `DataValidator.safe_get_score` from
`src/backend/agent/utils/validators.py`.  Python `isinstance(score, (int,
float))` is true for `bool` values as well, so they take the numeric branch;
non-numeric non-string values and unparsable strings yield the default 80. -/
def safe_get_score (score : PyVal) : Int :=
  match score with
  | PyVal.bool b => max 0 (min 100 (if b then 1 else 0))
  | PyVal.int n => max 0 (min 100 n)
  | PyVal.float q => max 0 (min 100 (pyTruncToInt q))
  | PyVal.str s =>
      match pyFloatOfString? s with
      | some q => max 0 (min 100 (pyTruncToInt q))
      | Option.none => DEFAULT_SCORE
  | _ => DEFAULT_SCORE

/-- Embeds `ReviewConfig.SEVERITY_LEVELS` from `review_config.py`. -/
def SEVERITY_LEVELS : List String := ["info", "warning", "error", "critical"]

/-- Embeds `ReviewConfig.ISSUE_CATEGORIES` from `review_config.py`. -/
def ISSUE_CATEGORIES : List String :=
  ["code_quality", "security", "performance", "best_practices", "documentation", "other"]

/-- The dict built by `DataValidator.validate_issue_data`: seven fixed keys;
after the validation pass `severity` and `category` are always strings. -/
structure ValidatedIssue where
  type : PyVal
  title : PyVal
  description : PyVal
  line : PyVal
  suggestion : PyVal
  severity : String
  category : String

/-- Embeds `DataValidator.validate_issue_data` from
`src/backend/agent/utils/validators.py` (lines 63-83): copy the fields with
defaults, then force `severity` into `SEVERITY_LEVELS` (else `"info"`) and
`category` into `ISSUE_CATEGORIES` (else `"other"`).  A non-string raw value
is never a member of a list of strings, so it is replaced as well. -/
def validate_issue_data (d : PyDict) : ValidatedIssue :=
  let sevRaw := pyGet d "severity" (pyGet d "type" (PyVal.str "info"))
  let catRaw := pyGet d "category" (PyVal.str "other")
  { type := pyGet d "type" (PyVal.str "info")
    title := pyGet d "title" (PyVal.str "未知问题")
    description := pyGet d "description" (PyVal.str "")
    line := pyGet d "line" (pyGet d "line_start" PyVal.none)
    suggestion := pyGet d "suggestion" (PyVal.str "")
    severity :=
      match sevRaw with
      | PyVal.str s => if s ∈ SEVERITY_LEVELS then s else "info"
      | _ => "info"
    category :=
      match catRaw with
      | PyVal.str s => if s ∈ ISSUE_CATEGORIES then s else "other"
      | _ => "other" }

/-- The dict produced by `validate_issue_data`, re-materialised as a Python
dict (this is literally the dict the source function returns). -/
def validatedIssueToDict (v : ValidatedIssue) : PyDict :=
  [("type", v.type), ("title", v.title), ("description", v.description),
   ("line", v.line), ("suggestion", v.suggestion),
   ("severity", PyVal.str v.severity), ("category", PyVal.str v.category)]

/-- The normalized per-file review dict produced by the Extractor
(`ResponseParser._validate_and_normalize_result` or
`DataValidator.create_default_file_review`): fixed keys, integer scores.
`positive_points` and `summary` are passed through unvalidated by the source,
so they remain arbitrary `PyVal`s here. -/
structure FileReviewDict where
  filename : String
  score : Int
  code_quality_score : Int
  security_score : Int
  business_score : Int
  performance_score : Int
  best_practices_score : Int
  issues : List PyDict
  positive_points : PyVal
  summary : PyVal

/-- Embeds `DataValidator.create_default_file_review` from `validators.py`
(lines 86-108): all six scores 70 and a single warning issue describing the
error. -/
def create_default_file_review (filename errMsg : String) : FileReviewDict :=
  { filename := filename
    score := 70
    code_quality_score := 70
    security_score := 70
    business_score := 70
    performance_score := 70
    best_practices_score := 70
    issues :=
      [[("type", PyVal.str "warning"),
        ("title", PyVal.str (if errMsg = "" then "默认结果" else "审查异常")),
        ("description", PyVal.str (if errMsg = "" then "使用默认审查结果" else errMsg)),
        ("severity", PyVal.str "warning"),
        ("category", PyVal.str "other"),
        ("suggestion", PyVal.str "请检查审查过程")]]
    positive_points := PyVal.list [PyVal.str "文件已审查"]
    summary := PyVal.str ("文件 " ++ filename ++ " 审查完成" ++
      (if errMsg = "" then "" else "（" ++ errMsg ++ "）")) }

/-- Embeds the Python iteration `for issue in result.get("issues", []):` with
its `isinstance(issue, dict)` filter.  Iterating a list keeps its dict
elements; iterating a string or a dict yields characters or keys, none of
which is a dict; iterating an int, float, bool or None raises `TypeError`
(modelled by `none`), which the outer handler of
`parse_single_file_response` turns into the default review. -/
def iterIssueDicts? (v : PyVal) : Option (List PyDict) :=
  match v with
  | PyVal.list xs =>
      some (xs.filterMap (fun x => match x with | PyVal.dict d => some d | _ => Option.none))
  | PyVal.str _ => some []
  | PyVal.dict _ => some []
  | _ => Option.none

/-- Embeds `ResponseParser._validate_and_normalize_result` from
`src/backend/agent/utils/parsers.py` (lines 218-240): validate each issue
dict, clamp all six scores through `safe_get_score`, pass `positive_points`
and `summary` through.  Returns `none` when the `issues` value is not
iterable, in which case the source raises and the caller falls back to the
default review. -/
def validate_and_normalize_result (d : PyDict) (filename : String) : Option FileReviewDict :=
  (iterIssueDicts? (pyGet d "issues" (PyVal.list []))).map fun issueDicts =>
    { filename := filename
      score := safe_get_score (pyGet d "overall_score" (pyGet d "score" (PyVal.int 80)))
      code_quality_score := safe_get_score (pyGet d "code_quality_score" (PyVal.int 80))
      security_score := safe_get_score (pyGet d "security_score" (PyVal.int 80))
      business_score := safe_get_score (pyGet d "business_score" (PyVal.int 80))
      performance_score := safe_get_score (pyGet d "performance_score" (PyVal.int 80))
      best_practices_score := safe_get_score (pyGet d "best_practices_score" (PyVal.int 80))
      issues := issueDicts.map (fun issue => validatedIssueToDict (validate_issue_data issue))
      positive_points := pyGet d "positive_points" (PyVal.list [])
      summary := pyGet d "summary" (PyVal.str ("文件 " ++ filename ++ " 审查完成")) }

/-- Summary of what the extraction stages of
`ResponseParser.parse_single_file_response` produced from the raw response
text, before validation/normalization:
either the Python value decoded from a repaired JSON candidate, or the dict
built by the regex fallback `_extract_info_with_regex`, or an exception
raised along the way (caught by the outer handler). -/
inductive ParseIntermediate where
  | jsonValue (v : PyVal)
  | regexFallback (d : PyDict)
  | raised (msg : String)

/-- The message of the `TypeError` raised inside
`_validate_and_normalize_result` when the `issues` value is not iterable.
The exact Python message text is irrelevant to every claim; it is abstracted
by this fixed representative. -/
def TYPE_ERROR_MSG : String := "TypeError"

/-- Embeds `ResponseParser.parse_single_file_response` from `parsers.py`
(lines 18-46), starting from the intermediate value the extraction stages
produced.  A decoded JSON value that is not a dict makes
`_validate_and_normalize_result` raise (`result.get` on a non-dict), caught
by the outer handler; likewise a non-iterable `issues` value.  Every
exception path returns `create_default_file_review`. -/
def parse_single_file_response (pre : ParseIntermediate) (filename : String) : FileReviewDict :=
  match pre with
  | ParseIntermediate.jsonValue (PyVal.dict d) =>
      match validate_and_normalize_result d filename with
      | some r => r
      | Option.none => create_default_file_review filename ("解析失败: " ++ TYPE_ERROR_MSG)
  | ParseIntermediate.jsonValue _ =>
      create_default_file_review filename ("解析失败: " ++ TYPE_ERROR_MSG)
  | ParseIntermediate.regexFallback d =>
      match validate_and_normalize_result d filename with
      | some r => r
      | Option.none => create_default_file_review filename ("解析失败: " ++ TYPE_ERROR_MSG)
  | ParseIntermediate.raised m =>
      create_default_file_review filename ("解析失败: " ++ m)

/-- Embeds the pydantic model `FileInfo` from
`src/pulse_guard/models/workflow.py` (lines 68-96). -/
structure FileInfo where
  filename : String
  status : String
  additions : Int
  deletions : Int
  changes : Int
  patch : String
  content : String
deriving DecidableEq

/-- Embeds the pydantic model `CodeIssueInfo` from
`src/pulse_guard/models/workflow.py` (lines 99-108). -/
structure CodeIssueInfo where
  type : String
  title : String
  description : String
  line : Option Int
  suggestion : String
  category : String
  severity : String
deriving DecidableEq

/-- Embeds the pydantic model `FileReviewInfo` from
`src/pulse_guard/models/workflow.py` (lines 111-124).  Its field defaults are
80 for every score, `[]` for the lists and `""` for the summary. -/
structure FileReviewInfo where
  filename : String
  score : Int
  code_quality_score : Int
  security_score : Int
  business_score : Int
  performance_score : Int
  best_practices_score : Int
  issues : List CodeIssueInfo
  positive_points : List String
  summary : String
deriving DecidableEq

/-- Pydantic validation of a `str` field: only an actual string is accepted
(pydantic v2 does not coerce numbers to strings). -/
def asString? (v : PyVal) : Option String :=
  match v with
  | PyVal.str s => some s
  | _ => Option.none

/-- Pydantic validation of an `Optional[int]` field. -/
def asOptInt? (v : PyVal) : Option (Option Int) :=
  match v with
  | PyVal.none => some Option.none
  | PyVal.int n => some (some n)
  | _ => Option.none

/-- Pydantic validation of a `List[str]` field: the value must be a list and
every element must be a string. -/
def asStringList? (v : PyVal) : Option (List String) :=
  match v with
  | PyVal.list xs =>
      xs.mapM (fun x => match x with | PyVal.str s => some s | _ => Option.none)
  | _ => Option.none

/-- Pydantic construction `CodeIssueInfo(**validated_issue)`: succeeds exactly
when the string fields hold strings and `line` holds an int or None;
otherwise pydantic raises a `ValidationError` (modelled by `none`), which the
caller catches and skips. -/
def mkCodeIssueInfo? (v : ValidatedIssue) : Option CodeIssueInfo :=
  match asString? v.type, asString? v.title, asString? v.description,
        asOptInt? v.line, asString? v.suggestion with
  | some t, some ti, some de, some li, some su =>
      some { type := t, title := ti, description := de, line := li,
             suggestion := su, category := v.category, severity := v.severity }
  | _, _, _, _, _ => Option.none

/-- Embeds `ReviewService._convert_result_to_file_review` from
`src/backend/agent/services/review_service.py` (lines 153-180) applied to one
of the dicts produced by the per-file task (those are always dicts, so the
`isinstance` guard passes).  Each issue dict is re-validated and converted;
conversion failures are caught and the issue skipped.  The
`FileReviewInfo(...)` construction itself is NOT inside a try: pydantic
raises (modelled by `none`) when `summary` is not a string or
`positive_points` is not a list of strings, and that exception propagates
out of the scheduler loop. -/
def convert_result_to_file_review (r : FileReviewDict) (filename : String) :
    Option FileReviewInfo :=
  let issues := r.issues.filterMap
    (fun d => mkCodeIssueInfo? (validate_issue_data d))
  match asString? r.summary, asStringList? r.positive_points with
  | some su, some pp =>
      some { filename := r.filename
             score := r.score
             code_quality_score := r.code_quality_score
             security_score := r.security_score
             business_score := r.business_score
             performance_score := r.performance_score
             best_practices_score := r.best_practices_score
             issues := issues
             positive_points := pp
             summary := su }
  | _, _ => (fun _ => Option.none) filename

/-- Embeds `ReviewService._create_error_review` from `review_service.py`
(lines 143-151).  Only `score` is set to 70; the five dimension scores take
the `FileReviewInfo` pydantic defaults of 80, and the issue list is empty. -/
def create_error_review (filename errMsg : String) : FileReviewInfo :=
  { filename := filename
    score := 70
    code_quality_score := 80
    security_score := 80
    business_score := 80
    performance_score := 80
    best_practices_score := 80
    issues := []
    positive_points := []
    summary := "审查失败: " ++ errMsg }

/-- Outcome of the external LLM invocation for one file, together with what
the Extractor stages made of the raw response text:
`response pre` means `llm.ainvoke` returned text and the extraction stages
produced the intermediate `pre`; `callError msg` means `llm.ainvoke` (or any
step before it) raised. -/
inductive ModelOutcome where
  | response (pre : ParseIntermediate)
  | callError (msg : String)

/-- Embeds `ReviewService._review_single_file_async` from `review_service.py`
(lines 99-118): parse the response through the Extractor, and on any
exception return the default review carrying the error message.  The
function itself therefore never raises. -/
def review_single_file_async (file : FileInfo) (oc : ModelOutcome) : FileReviewDict :=
  match oc with
  | ModelOutcome.response pre => parse_single_file_response pre file.filename
  | ModelOutcome.callError m => create_default_file_review file.filename m

/-- What `asyncio.gather(..., return_exceptions=True)` hands back for one
per-file task: either the dict the task returned, or the exception object
that escaped it. -/
inductive TaskOutcome where
  | completed (oc : ModelOutcome)
  | exn (msg : String)

/-- One iteration of the result loop of
`ReviewService._review_files_concurrently` (lines 86-95): an exception
result is replaced by `_create_error_review`, a dict result is converted
(the conversion can itself raise, modelled by `none`). -/
def process_file_result (file : FileInfo) (oc : TaskOutcome) : Option FileReviewInfo :=
  match oc with
  | TaskOutcome.exn m => some (create_error_review file.filename m)
  | TaskOutcome.completed moc =>
      convert_result_to_file_review (review_single_file_async file moc) file.filename

/-- The result loop of `_review_files_concurrently` over the zipped
(file, gathered-result) pairs; `none` as soon as one conversion raises,
since that exception aborts the whole loop. -/
def review_files_loop : List (FileInfo × TaskOutcome) → Option (List FileReviewInfo)
  | [] => some []
  | (f, oc) :: rest =>
      match process_file_result f oc with
      | some fr => (review_files_loop rest).map (fun l => fr :: l)
      | Option.none => Option.none

/-- Embeds `ReviewService._review_files_concurrently` from
`review_service.py` (lines 71-97).  `asyncio.gather(*tasks,
return_exceptions=True)` returns one outcome per task in task order; the
`outcomes` argument stands for that list, and `zip` pairs it with the input
files exactly as the source does. -/
def review_files_concurrently (files : List FileInfo) (outcomes : List TaskOutcome) :
    Option (List FileReviewInfo) :=
  review_files_loop (files.zip outcomes)

/-- An integer score lies in the valid range [0, 100]. -/
def scoreInRange (n : Int) : Prop := 0 ≤ n ∧ n ≤ 100

instance (n : Int) : Decidable (scoreInRange n) := by
  unfold scoreInRange; infer_instance

lemma clamp_in_range (n : Int) : scoreInRange (max 0 (min 100 n)) := by
  constructor <;> omega

lemma safe_get_score_in_range (v : PyVal) : scoreInRange (safe_get_score v) := by
  cases v with
  | bool b => exact clamp_in_range _
  | int n => exact clamp_in_range _
  | float q => exact clamp_in_range _
  | str s =>
      simp only [safe_get_score]
      cases pyFloatOfString? s with
      | none => exact ⟨by norm_num [DEFAULT_SCORE], by norm_num [DEFAULT_SCORE]⟩
      | some q => exact clamp_in_range _
  | none => exact ⟨by norm_num [safe_get_score, DEFAULT_SCORE], by norm_num [safe_get_score, DEFAULT_SCORE]⟩
  | list xs => exact ⟨by norm_num [safe_get_score, DEFAULT_SCORE], by norm_num [safe_get_score, DEFAULT_SCORE]⟩
  | dict es => exact ⟨by norm_num [safe_get_score, DEFAULT_SCORE], by norm_num [safe_get_score, DEFAULT_SCORE]⟩

/-- All six scores of a `FileReviewDict` are in range. -/
def allScoresInRange (r : FileReviewDict) : Prop :=
  scoreInRange r.score ∧ scoreInRange r.code_quality_score ∧
  scoreInRange r.security_score ∧ scoreInRange r.business_score ∧
  scoreInRange r.performance_score ∧ scoreInRange r.best_practices_score

lemma create_default_file_review_scores (fn msg : String) :
    allScoresInRange (create_default_file_review fn msg) := by
  refine ⟨⟨?_, ?_⟩, ⟨?_, ?_⟩, ⟨?_, ?_⟩, ⟨?_, ?_⟩, ⟨?_, ?_⟩, ⟨?_, ?_⟩⟩ <;>
    norm_num [create_default_file_review]

lemma validate_and_normalize_scores (d : PyDict) (fn : String) (r : FileReviewDict)
    (h : validate_and_normalize_result d fn = some r) : allScoresInRange r := by
  unfold validate_and_normalize_result at h
  rcases Option.map_eq_some'.mp h with ⟨l, _, rfl⟩
  exact ⟨safe_get_score_in_range _, safe_get_score_in_range _, safe_get_score_in_range _,
         safe_get_score_in_range _, safe_get_score_in_range _, safe_get_score_in_range _⟩

/-- C1: for every raw response text and filename, the Extractor
(`parse_single_file_response`) terminates normally without raising — it is a
total function of the intermediate the extraction stages produced, with every
exception path routed to the default review — and every one of the six score
fields of the returned record is an integer in [0, 100]. -/
theorem C1_extractor_scores_in_range (pre : ParseIntermediate) (filename : String) :
    allScoresInRange (parse_single_file_response pre filename) := by
  cases pre with
  | jsonValue v =>
      cases v with
      | dict d =>
          simp only [parse_single_file_response]
          cases hv : validate_and_normalize_result d filename with
          | none => exact create_default_file_review_scores _ _
          | some r => exact validate_and_normalize_scores d filename r hv
      | none => exact create_default_file_review_scores _ _
      | bool b => exact create_default_file_review_scores _ _
      | int n => exact create_default_file_review_scores _ _
      | float q => exact create_default_file_review_scores _ _
      | str s => exact create_default_file_review_scores _ _
      | list xs => exact create_default_file_review_scores _ _
  | regexFallback d =>
      simp only [parse_single_file_response]
      cases hv : validate_and_normalize_result d filename with
      | none => exact create_default_file_review_scores _ _
      | some r => exact validate_and_normalize_scores d filename r hv
  | raised m => exact create_default_file_review_scores _ _

/-- The pydantic typability condition under which
`FileReviewInfo(**...)` does not raise in
`_convert_result_to_file_review`: the dict carries a string `summary` and a
list-of-strings `positive_points`.  Every dict produced by the error paths
satisfies it; a dict produced from decoded JSON need not. -/
def wellTypedDict (r : FileReviewDict) : Prop :=
  (asString? r.summary).isSome ∧ (asStringList? r.positive_points).isSome

instance (r : FileReviewDict) : Decidable (wellTypedDict r) := by
  unfold wellTypedDict; infer_instance

/-- The per-task condition under which the result loop converts the task
outcome without raising. -/
def taskResultWellTyped (f : FileInfo) (oc : TaskOutcome) : Prop :=
  match oc with
  | TaskOutcome.exn _ => True
  | TaskOutcome.completed moc => wellTypedDict (review_single_file_async f moc)

instance (f : FileInfo) (oc : TaskOutcome) : Decidable (taskResultWellTyped f oc) := by
  unfold taskResultWellTyped
  cases oc <;> infer_instance

lemma convert_isSome_of_wellTyped (r : FileReviewDict) (fn : String)
    (h : wellTypedDict r) : ∃ fr, convert_result_to_file_review r fn = some fr := by
  obtain ⟨h1, h2⟩ := h
  rcases Option.isSome_iff_exists.mp h1 with ⟨su, hsu⟩
  rcases Option.isSome_iff_exists.mp h2 with ⟨pp, hpp⟩
  unfold convert_result_to_file_review
  rw [hsu, hpp]
  exact ⟨_, rfl⟩

lemma process_isSome_of_wellTyped (f : FileInfo) (oc : TaskOutcome)
    (h : taskResultWellTyped f oc) : ∃ fr, process_file_result f oc = some fr := by
  cases oc with
  | exn m => exact ⟨_, rfl⟩
  | completed moc =>
      simp only [taskResultWellTyped] at h
      simp only [process_file_result]
      exact convert_isSome_of_wellTyped (review_single_file_async f moc) f.filename h

lemma review_files_loop_spec (pairs : List (FileInfo × TaskOutcome))
    (h : ∀ p ∈ pairs, taskResultWellTyped p.1 p.2) :
    ∃ reviews, review_files_loop pairs = some reviews ∧
      reviews.length = pairs.length ∧
      ∀ i p, pairs.get? i = some p →
        reviews.get? i = process_file_result p.1 p.2 := by
  induction pairs with
  | nil =>
      refine ⟨[], rfl, rfl, ?_⟩
      intro i p hp
      simp at hp
  | cons hd rest ih =>
      obtain ⟨f, oc⟩ := hd
      obtain ⟨fr, hfr⟩ := process_isSome_of_wellTyped f oc (h _ (List.mem_cons_self _ _))
      obtain ⟨revs, hloop, hlen, hidx⟩ := ih (fun p hp => h p (List.mem_cons_of_mem _ hp))
      refine ⟨fr :: revs, ?_, by simpa using hlen, ?_⟩
      · simp only [review_files_loop, hfr, hloop, Option.map_some']
      · intro i p hp
        cases i with
        | zero =>
            simp only [List.get?] at hp ⊢
            cases hp
            exact hfr.symm
        | succ j =>
            simp only [List.get?] at hp ⊢
            exact hidx j p hp

/-- The counterexample input for C2: a single file whose model response
decodes to the valid JSON object carrying the single pair summary: 5 (an
integer-valued summary).  The Extractor passes the integer through
unvalidated, and the pydantic construction of `FileReviewInfo` with an
integer summary then raises inside the result loop, so the scheduler raises
instead of returning a 1-element list. -/
theorem C2_counterexample :
    review_files_concurrently
      [⟨"a.py", "modified", 0, 0, 0, "", ""⟩]
      [TaskOutcome.completed (ModelOutcome.response
        (ParseIntermediate.jsonValue (PyVal.dict [("summary", PyVal.int 5)])))] =
      Option.none := by
  decide

/-- C2 (amended): for every input list of N files and the N gathered task
outcomes, PROVIDED each successfully-parsed task dict carries a string
summary and a list-of-strings positive_points (always true when the task
failed, and true for every schema-conforming parse), the Scheduler returns
exactly N results and the i-th result is computed from the i-th file and its
own outcome alone. -/
theorem C2_scheduler_returns_N_results (files : List FileInfo)
    (outcomes : List TaskOutcome)
    (hlen : outcomes.length = files.length)
    (hok : ∀ p ∈ files.zip outcomes, taskResultWellTyped p.1 p.2) :
    ∃ reviews, review_files_concurrently files outcomes = some reviews ∧
      reviews.length = files.length ∧
      ∀ i p, (files.zip outcomes).get? i = some p →
        reviews.get? i = process_file_result p.1 p.2 := by
  obtain ⟨reviews, hloop, hl, hidx⟩ := review_files_loop_spec (files.zip outcomes) hok
  refine ⟨reviews, hloop, ?_, hidx⟩
  rw [hl, List.length_zip, hlen, Nat.min_self]

/-- Witness input for C2: two files. -/
def c2wFiles : List FileInfo :=
  [⟨"x.py", "modified", 1, 0, 1, "p", "c"⟩, ⟨"y.py", "added", 2, 0, 2, "q", "d"⟩]

/-- Witness input for C2: one successful parse and one task exception. -/
def c2wOutcomes : List TaskOutcome :=
  [TaskOutcome.completed (ModelOutcome.response
     (ParseIntermediate.jsonValue (PyVal.dict [("overall_score", PyVal.int 95)]))),
   TaskOutcome.exn "boom"]

/-- Witness for C2: the hypotheses hold at the concrete input and the
scheduler returns exactly two results. -/
theorem C2_scheduler_witness :
    (c2wOutcomes.length = c2wFiles.length ∧
      ∀ p ∈ c2wFiles.zip c2wOutcomes, taskResultWellTyped p.1 p.2) ∧
    (∃ reviews, review_files_concurrently c2wFiles c2wOutcomes = some reviews ∧
      reviews.length = c2wFiles.length ∧
      ∀ i p, (c2wFiles.zip c2wOutcomes).get? i = some p →
        reviews.get? i = process_file_result p.1 p.2) :=
  ⟨⟨by decide, by decide⟩,
    C2_scheduler_returns_N_results c2wFiles c2wOutcomes (by decide) (by decide)⟩

lemma convert_default_review (fn msg : String) :
    convert_result_to_file_review (create_default_file_review fn msg) fn =
      some { filename := fn, score := 70, code_quality_score := 70,
             security_score := 70, business_score := 70, performance_score := 70,
             best_practices_score := 70,
             issues := [⟨"warning", (if msg = "" then "默认结果" else "审查异常"),
                         (if msg = "" then "使用默认审查结果" else msg), Option.none,
                         "请检查审查过程", "other", "warning"⟩],
             positive_points := ["文件已审查"],
             summary := "文件 " ++ fn ++ " 审查完成" ++
               (if msg = "" then "" else "（" ++ msg ++ "）") } := rfl

/-- Counterexample for C3: when the model call for the (single) file raises,
the synthesized record has all six scores 70 but its single Finding has
severity "warning", not "critical" (it comes from
`create_default_file_review` via the in-task handler, not from
`_create_error_review`, which would give five scores of 80 and no Finding at
all). -/
theorem C3_counterexample :
    review_files_concurrently
      [⟨"a.py", "modified", 0, 0, 0, "", ""⟩]
      [TaskOutcome.completed (ModelOutcome.callError "连接超时")] =
      some [{ filename := "a.py", score := 70, code_quality_score := 70,
              security_score := 70, business_score := 70, performance_score := 70,
              best_practices_score := 70,
              issues := [⟨"warning", "审查异常", "连接超时", Option.none,
                          "请检查审查过程", "other", "warning"⟩],
              positive_points := ["文件已审查"],
              summary := "文件 a.py 审查完成（连接超时）" }] ∧
    ∀ iss ∈ ({ filename := "a.py", score := 70, code_quality_score := 70,
               security_score := 70, business_score := 70, performance_score := 70,
               best_practices_score := 70,
               issues := [⟨"warning", "审查异常", "连接超时", Option.none,
                           "请检查审查过程", "other", "warning"⟩],
               positive_points := ["文件已审查"],
               summary := "文件 a.py 审查完成（连接超时）" } : FileReviewInfo).issues,
      iss.severity ≠ "critical" := by
  constructor
  · decide
  · decide

/-- C3 (amended): whenever the model call for file i raises, the Scheduler
synthesizes for that file a result in which all six scores equal 70 and
whose findings list contains exactly one WARNING-severity Finding (category
"other") whose description is the error message, and every other file's
entry is computed from its own file and outcome alone (provided, as in C2,
every task dict is pydantic-typable so the loop completes). -/
theorem C3_model_error_review (files : List FileInfo) (outcomes : List TaskOutcome)
    (i : Nat) (f : FileInfo) (msg : String)
    (_hlen : outcomes.length = files.length)
    (hok : ∀ p ∈ files.zip outcomes, taskResultWellTyped p.1 p.2)
    (hf : files.get? i = some f)
    (ho : outcomes.get? i = some (TaskOutcome.completed (ModelOutcome.callError msg))) :
    ∃ reviews r, review_files_concurrently files outcomes = some reviews ∧
      reviews.get? i = some r ∧
      r.score = 70 ∧ r.code_quality_score = 70 ∧ r.security_score = 70 ∧
      r.business_score = 70 ∧ r.performance_score = 70 ∧ r.best_practices_score = 70 ∧
      r.issues.map (fun iss => (iss.severity, iss.category)) = [("warning", "other")] ∧
      (msg ≠ "" → r.issues.map CodeIssueInfo.description = [msg]) ∧
      ∀ j q, j ≠ i → (files.zip outcomes).get? j = some q →
        reviews.get? j = process_file_result q.1 q.2 := by
  obtain ⟨reviews, hrun, _, hidx⟩ := review_files_loop_spec (files.zip outcomes) hok
  have hz : (files.zip outcomes).get? i =
      some (f, TaskOutcome.completed (ModelOutcome.callError msg)) :=
    (List.get?_zip_eq_some _ _ _ _).mpr ⟨hf, ho⟩
  have hri := hidx i _ hz
  rw [process_file_result, review_single_file_async, convert_default_review] at hri
  refine ⟨reviews, _, hrun, hri, rfl, rfl, rfl, rfl, rfl, rfl, rfl, ?_, ?_⟩
  · intro hmsg
    simp [hmsg]
  · intro j q _ hq
    exact hidx j q hq

/-- Witness for C3: a two-file batch whose second model call raises with a
quota message satisfies the hypotheses. -/
theorem C3_model_error_witness :
    (([TaskOutcome.completed (ModelOutcome.response (ParseIntermediate.raised "bad")),
       TaskOutcome.completed (ModelOutcome.callError "quota exceeded")] :
        List TaskOutcome).length =
      ([⟨"m.py", "modified", 0, 0, 0, "", ""⟩, ⟨"n.py", "modified", 0, 0, 0, "", ""⟩] :
        List FileInfo).length) ∧
    (∃ reviews r,
      review_files_concurrently
        [⟨"m.py", "modified", 0, 0, 0, "", ""⟩, ⟨"n.py", "modified", 0, 0, 0, "", ""⟩]
        [TaskOutcome.completed (ModelOutcome.response (ParseIntermediate.raised "bad")),
         TaskOutcome.completed (ModelOutcome.callError "quota exceeded")] = some reviews ∧
      reviews.get? 1 = some r ∧
      r.score = 70 ∧ r.code_quality_score = 70 ∧ r.security_score = 70 ∧
      r.business_score = 70 ∧ r.performance_score = 70 ∧ r.best_practices_score = 70 ∧
      r.issues.map (fun iss => (iss.severity, iss.category)) = [("warning", "other")] ∧
      ("quota exceeded" ≠ "" → r.issues.map CodeIssueInfo.description = ["quota exceeded"]) ∧
      ∀ j q, j ≠ 1 →
        (([⟨"m.py", "modified", 0, 0, 0, "", ""⟩, ⟨"n.py", "modified", 0, 0, 0, "", ""⟩] :
            List FileInfo).zip
          [TaskOutcome.completed (ModelOutcome.response (ParseIntermediate.raised "bad")),
           TaskOutcome.completed (ModelOutcome.callError "quota exceeded")]).get? j = some q →
        reviews.get? j = process_file_result q.1 q.2) :=
  ⟨by decide,
    C3_model_error_review _ _ 1 ⟨"n.py", "modified", 0, 0, 0, "", ""⟩ "quota exceeded"
      (by decide) (by decide) rfl rfl⟩

lemma validate_issue_severity_mem (d : PyDict) :
    (validate_issue_data d).severity ∈ SEVERITY_LEVELS := by
  unfold validate_issue_data
  dsimp only
  split
  · split
    · assumption
    · decide
  · decide

lemma validate_issue_category_mem (d : PyDict) :
    (validate_issue_data d).category ∈ ISSUE_CATEGORIES := by
  unfold validate_issue_data
  dsimp only
  split
  · split
    · assumption
    · decide
  · decide

lemma mkCodeIssueInfo_fields (v : ValidatedIssue) (c : CodeIssueInfo)
    (h : mkCodeIssueInfo? v = some c) :
    c.severity = v.severity ∧ c.category = v.category := by
  unfold mkCodeIssueInfo? at h
  split at h
  · cases h
    exact ⟨rfl, rfl⟩
  · cases h

lemma convert_issue_normalized (r : FileReviewDict) (fn : String) (fr : FileReviewInfo)
    (h : convert_result_to_file_review r fn = some fr) :
    ∀ iss ∈ fr.issues,
      iss.severity ∈ SEVERITY_LEVELS ∧ iss.category ∈ ISSUE_CATEGORIES := by
  unfold convert_result_to_file_review at h
  split at h
  case _ su pp hsu hpp =>
    cases h
    intro iss hiss
    simp only [List.mem_filterMap] at hiss
    obtain ⟨d, _, hd⟩ := hiss
    obtain ⟨hs, hc⟩ := mkCodeIssueInfo_fields _ _ hd
    rw [hs, hc]
    exact ⟨validate_issue_severity_mem d, validate_issue_category_mem d⟩
  case _ =>
    cases h

lemma review_files_loop_issues (pairs : List (FileInfo × TaskOutcome))
    (reviews : List FileReviewInfo) (h : review_files_loop pairs = some reviews) :
    ∀ r ∈ reviews, ∀ iss ∈ r.issues,
      iss.severity ∈ SEVERITY_LEVELS ∧ iss.category ∈ ISSUE_CATEGORIES := by
  induction pairs generalizing reviews with
  | nil =>
      cases h
      intro r hr
      simp at hr
  | cons hd rest ih =>
      obtain ⟨f, oc⟩ := hd
      simp only [review_files_loop] at h
      cases hp : process_file_result f oc with
      | none => rw [hp] at h; cases h
      | some fr =>
          rw [hp] at h
          rcases Option.map_eq_some'.mp h with ⟨rest', hrest, rfl⟩
          intro r hr
          rcases List.mem_cons.mp hr with rfl | hmem
          · cases oc with
            | exn m =>
                simp only [process_file_result] at hp
                cases hp
                intro iss hiss
                simp [create_error_review] at hiss
            | completed moc =>
                simp only [process_file_result] at hp
                exact convert_issue_normalized _ _ _ hp
          · exact ih rest' hrest r hmem

/-- C7: every Finding in any output of the (canonical, backend-service)
pipeline has severity in SEVERITY_LEVELS and category in ISSUE_CATEGORIES,
for every raw input; and in `validate_issue_data` an unrecognized raw
severity or category value (including arbitrary casing, since membership is
case-sensitive) is replaced by "info" / "other" respectively. -/
theorem C7_findings_normalized :
    (∀ (files : List FileInfo) (outcomes : List TaskOutcome)
        (reviews : List FileReviewInfo),
        review_files_concurrently files outcomes = some reviews →
        ∀ r ∈ reviews, ∀ iss ∈ r.issues,
          iss.severity ∈ SEVERITY_LEVELS ∧ iss.category ∈ ISSUE_CATEGORIES) ∧
    (∀ d : PyDict,
        (validate_issue_data d).severity ∈ SEVERITY_LEVELS ∧
        (validate_issue_data d).category ∈ ISSUE_CATEGORIES) ∧
    (∀ (d : PyDict) (s : String),
        pyGet d "severity" (pyGet d "type" (PyVal.str "info")) = PyVal.str s →
        s ∉ SEVERITY_LEVELS → (validate_issue_data d).severity = "info") ∧
    (∀ (d : PyDict) (s : String),
        pyGet d "category" (PyVal.str "other") = PyVal.str s →
        s ∉ ISSUE_CATEGORIES → (validate_issue_data d).category = "other") := by
  refine ⟨?_, ?_, ?_, ?_⟩
  · intro files outcomes reviews h
    exact review_files_loop_issues _ _ h
  · intro d
    exact ⟨validate_issue_severity_mem d, validate_issue_category_mem d⟩
  · intro d s hraw hmem
    unfold validate_issue_data
    dsimp only
    rw [hraw]
    exact if_neg hmem
  · intro d s hraw hmem
    unfold validate_issue_data
    dsimp only
    rw [hraw]
    exact if_neg hmem

/-- Witness for C7: a raw issue with unrecognized severity "Blocker" comes
out of the scheduler normalized to severity "info", category "other"; and
validate_issue_data maps raw "CRITICAL" / "Style" to "info" / "other". -/
theorem C7_witness :
    ((validate_issue_data [("severity", PyVal.str "CRITICAL")]).severity = "info" ∧
     (validate_issue_data [("category", PyVal.str "Style")]).category = "other") ∧
    ∀ r ∈ ([{ filename := "w.py", score := 80, code_quality_score := 80,
              security_score := 80, business_score := 80, performance_score := 80,
              best_practices_score := 80,
              issues := [⟨"info", "未知问题", "", Option.none, "", "other", "info"⟩],
              positive_points := [], summary := "文件 w.py 审查完成" }] :
            List FileReviewInfo),
      ∀ iss ∈ r.issues,
        iss.severity ∈ SEVERITY_LEVELS ∧ iss.category ∈ ISSUE_CATEGORIES :=
  ⟨⟨C7_findings_normalized.2.2.1 _ "CRITICAL" rfl (by decide),
    C7_findings_normalized.2.2.2 _ "Style" rfl (by decide)⟩,
   C7_findings_normalized.1
     [⟨"w.py", "modified", 0, 0, 0, "", ""⟩]
     [TaskOutcome.completed (ModelOutcome.response (ParseIntermediate.jsonValue
        (PyVal.dict [("issues",
          PyVal.list [PyVal.dict [("severity", PyVal.str "Blocker")]])])))]
     _ rfl⟩

/-- Round-half-to-even on rationals: the behaviour of Python `round()` with
float arithmetic modelled as exact rational arithmetic. -/
def roundHalfEven (q : Rat) : Int :=
  if q - ⌊q⌋ < 1 / 2 then ⌊q⌋
  else if 1 / 2 < q - ⌊q⌋ then ⌊q⌋ + 1
  else if ⌊q⌋ % 2 = 0 then ⌊q⌋ else ⌊q⌋ + 1

/-- Python `round(x, 1)`: round to one decimal place, ties to even. -/
def roundTo1 (q : Rat) : Rat := (roundHalfEven (q * 10) : Rat) / 10

/-- Embeds `ReviewConfig.SCORE_WEIGHTS` from
`src/backend/agent/config/review_config.py` (lines 10-16).  The source float
literals 0.25 and 0.125 are exactly the dyadic rationals 1/4 and 1/8. -/
def SCORE_WEIGHTS : List (String × Rat) :=
  [("code_quality", 1 / 4), ("security", 1 / 4), ("business", 1 / 4),
   ("performance", 1 / 8), ("best_practices", 1 / 8)]

/-- Access `SCORE_WEIGHTS[key]` (every key used by the source is present). -/
def scoreWeight (k : String) : Rat :=
  match List.lookup k SCORE_WEIGHTS with
  | some w => w
  | Option.none => 0

/-- The arithmetic mean of one integer score dimension over the file
reviews, as computed by `_calculate_overall_scores` (exact rational in
place of Python float division). -/
def scoreAvg (f : FileReviewInfo → Int) (frs : List FileReviewInfo) : Rat :=
  ((frs.map f).sum : Int) / (frs.length : Rat)

/-- The dict returned by `ReviewService._calculate_overall_scores`.  In the
empty-input branch the source dict has no performance or best_practices
keys, hence the `Option` fields. -/
structure OverallScores where
  overall_score : Rat
  code_quality_score : Rat
  security_score : Rat
  business_score : Rat
  performance_score : Option Rat
  best_practices_score : Option Rat
  summary : String
  standards_passed : Int
  standards_failed : Int
  standards_total : Int

/-- Embeds `ReviewService._calculate_overall_scores` from
`src/backend/agent/services/review_service.py` (lines 182-227): dimension
means, the weighted overall score, every published score rounded to one
decimal, and the heuristic standards counters. -/
def calculate_overall_scores (frs : List FileReviewInfo) : OverallScores :=
  match frs with
  | [] =>
      { overall_score := 100, code_quality_score := 100, security_score := 100,
        business_score := 100, performance_score := Option.none,
        best_practices_score := Option.none, summary := "没有文件需要审查",
        standards_passed := 0, standards_failed := 0, standards_total := 0 }
  | _ :: _ =>
      let totalFiles : Nat := frs.length
      let avgCq := scoreAvg FileReviewInfo.code_quality_score frs
      let avgSec := scoreAvg FileReviewInfo.security_score frs
      let avgBus := scoreAvg FileReviewInfo.business_score frs
      let avgPerf := scoreAvg FileReviewInfo.performance_score frs
      let avgBp := scoreAvg FileReviewInfo.best_practices_score frs
      let overall := avgCq * scoreWeight "code_quality" + avgSec * scoreWeight "security" +
        avgBus * scoreWeight "business" + avgPerf * scoreWeight "performance" +
        avgBp * scoreWeight "best_practices"
      let totalIssues : Nat := (frs.map (fun fr => fr.issues.length)).sum
      let highScoreFiles : Nat := (frs.filter (fun fr => 85 ≤ fr.score)).length
      { overall_score := roundTo1 overall
        code_quality_score := roundTo1 avgCq
        security_score := roundTo1 avgSec
        business_score := roundTo1 avgBus
        performance_score := some (roundTo1 avgPerf)
        best_practices_score := some (roundTo1 avgBp)
        summary := "审查了 " ++ Nat.repr totalFiles ++ " 个文件，发现 " ++
          Nat.repr totalIssues ++ " 个问题，" ++ Nat.repr highScoreFiles ++ " 个文件质量优秀"
        standards_passed := max 0 ((totalFiles : Int) * 5 - (totalIssues : Int))
        standards_failed := (totalIssues : Int)
        standards_total := (totalFiles : Int) * 5 }

/-- Embeds the pydantic model `EnhancedAnalysis` from
`src/pulse_guard/models/workflow.py` (lines 127-142); every score field has
pydantic default 80.0, the lists default to empty and the counters to 0. -/
structure EnhancedAnalysis where
  overall_score : Rat
  code_quality_score : Rat
  security_score : Rat
  business_score : Rat
  performance_score : Rat
  best_practices_score : Rat
  file_results : List FileReviewInfo
  summary : String
  standards_passed : Int
  standards_failed : Int
  standards_total : Int

/-- Embeds the `EnhancedAnalysis(...)` construction in
`ReviewService._create_empty_review_state` from `review_service.py` (lines
54-69): the call passes 100 for only FOUR of the six scores and omits
`performance_score` and `best_practices_score`, which therefore take their
pydantic defaults of 80. -/
def create_empty_enhanced_analysis : EnhancedAnalysis :=
  { overall_score := 100, code_quality_score := 100, security_score := 100,
    business_score := 100, performance_score := 80, best_practices_score := 80,
    file_results := [], summary := "没有代码文件需要审查",
    standards_passed := 0, standards_failed := 0, standards_total := 0 }

/-- Counterexample for C6: in the zero-file result the performance and
best-practices scores are 80 (the pydantic defaults), not 100, because the
source constructor call omits them. -/
theorem C6_counterexample :
    create_empty_enhanced_analysis.performance_score = 80 ∧
    create_empty_enhanced_analysis.best_practices_score = 80 ∧
    ¬ (create_empty_enhanced_analysis.performance_score = 100 ∧
       create_empty_enhanced_analysis.best_practices_score = 100) := by
  refine ⟨rfl, rfl, ?_⟩
  intro h
  exact absurd h.1 (by decide)

/-- C6 (amended): with zero input files the pipeline returns an
EnhancedAnalysis whose overall, code-quality, security and business scores
are 100, whose performance and best-practices scores keep their model
defaults of 80, whose file_results list is empty and whose summary is the
nothing-to-review text; the aggregator dict for the empty list likewise
carries 100 for its four score keys and omits the other two. -/
theorem C6_empty_review_analysis :
    create_empty_enhanced_analysis.overall_score = 100 ∧
    create_empty_enhanced_analysis.code_quality_score = 100 ∧
    create_empty_enhanced_analysis.security_score = 100 ∧
    create_empty_enhanced_analysis.business_score = 100 ∧
    create_empty_enhanced_analysis.performance_score = 80 ∧
    create_empty_enhanced_analysis.best_practices_score = 80 ∧
    create_empty_enhanced_analysis.file_results = [] ∧
    create_empty_enhanced_analysis.summary = "没有代码文件需要审查" ∧
    (calculate_overall_scores []).overall_score = 100 ∧
    (calculate_overall_scores []).code_quality_score = 100 ∧
    (calculate_overall_scores []).security_score = 100 ∧
    (calculate_overall_scores []).business_score = 100 ∧
    (calculate_overall_scores []).performance_score = Option.none ∧
    (calculate_overall_scores []).best_practices_score = Option.none ∧
    (calculate_overall_scores []).summary = "没有文件需要审查" := by
  refine ⟨rfl, rfl, rfl, rfl, rfl, rfl, rfl, rfl, rfl, rfl, rfl, rfl, rfl, rfl, rfl⟩


lemma scoreWeight_cq : scoreWeight "code_quality" = 1 / 4 := rfl

lemma scoreWeight_sec : scoreWeight "security" = 1 / 4 := rfl

lemma scoreWeight_bus : scoreWeight "business" = 1 / 4 := rfl

lemma scoreWeight_perf : scoreWeight "performance" = 1 / 8 := rfl

lemma scoreWeight_bp : scoreWeight "best_practices" = 1 / 8 := rfl

lemma scoreAvg_single (f : FileReviewInfo → Int) (a : FileReviewInfo) :
    scoreAvg f [a] = (f a : Rat) := by
  simp [scoreAvg]

lemma calc_overall_cons (a : FileReviewInfo) (l : List FileReviewInfo) :
    (calculate_overall_scores (a :: l)).overall_score =
      roundTo1 (scoreAvg FileReviewInfo.code_quality_score (a :: l) * scoreWeight "code_quality" +
        scoreAvg FileReviewInfo.security_score (a :: l) * scoreWeight "security" +
        scoreAvg FileReviewInfo.business_score (a :: l) * scoreWeight "business" +
        scoreAvg FileReviewInfo.performance_score (a :: l) * scoreWeight "performance" +
        scoreAvg FileReviewInfo.best_practices_score (a :: l) * scoreWeight "best_practices") :=
  rfl

/-- Counterexample for C8: with one file scoring 80 everywhere except 81 for
performance, the exact weighted combination of the means is 80.125 = 641/8,
but the aggregator publishes round(80.125, 1) = 80.1, so the published
overall score is NOT equal to the exact weighted combination. -/
theorem C8_counterexample :
    (calculate_overall_scores
        [⟨"f.py", 80, 80, 80, 80, 81, 80, [], [], ""⟩]).overall_score ≠
      1 / 4 * scoreAvg FileReviewInfo.code_quality_score
          [⟨"f.py", 80, 80, 80, 80, 81, 80, [], [], ""⟩] +
      1 / 4 * scoreAvg FileReviewInfo.security_score
          [⟨"f.py", 80, 80, 80, 80, 81, 80, [], [], ""⟩] +
      1 / 4 * scoreAvg FileReviewInfo.business_score
          [⟨"f.py", 80, 80, 80, 80, 81, 80, [], [], ""⟩] +
      1 / 8 * scoreAvg FileReviewInfo.performance_score
          [⟨"f.py", 80, 80, 80, 80, 81, 80, [], [], ""⟩] +
      1 / 8 * scoreAvg FileReviewInfo.best_practices_score
          [⟨"f.py", 80, 80, 80, 80, 81, 80, [], [], ""⟩] := by
  rw [calc_overall_cons]
  rw [scoreAvg_single, scoreAvg_single, scoreAvg_single, scoreAvg_single, scoreAvg_single,
    scoreWeight_cq, scoreWeight_sec, scoreWeight_bus, scoreWeight_perf, scoreWeight_bp]
  have harg : ((80 : Int) : Rat) * (1 / 4) + ((80 : Int) : Rat) * (1 / 4) +
      ((80 : Int) : Rat) * (1 / 4) + ((81 : Int) : Rat) * (1 / 8) +
      ((80 : Int) : Rat) * (1 / 8) = 641 / 8 := by
    norm_num
  rw [harg]
  have hmul : (641 / 8 : Rat) * 10 = 3205 / 4 := by norm_num
  have hfl : ⌊(3205 / 4 : Rat)⌋ = 801 := by
    rw [Int.floor_eq_iff]
    constructor <;> norm_num
  rw [roundTo1, hmul, roundHalfEven, hfl]
  rw [if_pos (show (3205 / 4 : Rat) - ((801 : Int) : Rat) < 1 / 2 by norm_num)]
  norm_num

/-- C8 (amended): for every non-empty input the published overall score is
the weighted combination 0.25/0.25/0.25/0.125/0.125 of the five dimension
means, ROUNDED to one decimal place; and the five configured weights sum to
exactly 1 (in particular to 1 within 1e-6). -/
theorem C8_weighted_overall (frs : List FileReviewInfo) (h : frs ≠ []) :
    (calculate_overall_scores frs).overall_score =
      roundTo1 (1 / 4 * scoreAvg FileReviewInfo.code_quality_score frs +
        1 / 4 * scoreAvg FileReviewInfo.security_score frs +
        1 / 4 * scoreAvg FileReviewInfo.business_score frs +
        1 / 8 * scoreAvg FileReviewInfo.performance_score frs +
        1 / 8 * scoreAvg FileReviewInfo.best_practices_score frs) ∧
    (SCORE_WEIGHTS.map Prod.snd).sum = 1 ∧
    |(SCORE_WEIGHTS.map Prod.snd).sum - 1| ≤ 1 / 1000000 := by
  have hsum : (SCORE_WEIGHTS.map Prod.snd).sum = 1 := by
    norm_num [SCORE_WEIGHTS]
  refine ⟨?_, hsum, by rw [hsum]; norm_num⟩
  match frs, h with
  | a :: l, _ =>
      rw [calc_overall_cons, scoreWeight_cq, scoreWeight_sec, scoreWeight_bus,
        scoreWeight_perf, scoreWeight_bp]
      congr 1
      ring

/-- Witness for C8: one file with every score 90 satisfies the hypothesis. -/
theorem C8_weighted_overall_witness :
    (([⟨"g.py", 90, 90, 90, 90, 90, 90, [], [], ""⟩] : List FileReviewInfo) ≠ []) ∧
    ((calculate_overall_scores
        [⟨"g.py", 90, 90, 90, 90, 90, 90, [], [], ""⟩]).overall_score =
      roundTo1 (1 / 4 * scoreAvg FileReviewInfo.code_quality_score
          [⟨"g.py", 90, 90, 90, 90, 90, 90, [], [], ""⟩] +
        1 / 4 * scoreAvg FileReviewInfo.security_score
          [⟨"g.py", 90, 90, 90, 90, 90, 90, [], [], ""⟩] +
        1 / 4 * scoreAvg FileReviewInfo.business_score
          [⟨"g.py", 90, 90, 90, 90, 90, 90, [], [], ""⟩] +
        1 / 8 * scoreAvg FileReviewInfo.performance_score
          [⟨"g.py", 90, 90, 90, 90, 90, 90, [], [], ""⟩] +
        1 / 8 * scoreAvg FileReviewInfo.best_practices_score
          [⟨"g.py", 90, 90, 90, 90, 90, 90, [], [], ""⟩]) ∧
      (SCORE_WEIGHTS.map Prod.snd).sum = 1 ∧
      |(SCORE_WEIGHTS.map Prod.snd).sum - 1| ≤ 1 / 1000000) :=
  ⟨by decide, C8_weighted_overall _ (by decide)⟩

/-- C10: for every non-empty input, every aggregate score the aggregator
returns (the overall score and the five dimension means) is the one-decimal
rounding of the corresponding exact value, and is therefore an integer
multiple of 1/10 — the published aggregate is the rounded value, not the
exact mean. -/
theorem C10_scores_one_decimal (frs : List FileReviewInfo) (h : frs ≠ []) :
    ((calculate_overall_scores frs).overall_score =
        roundTo1 (scoreAvg FileReviewInfo.code_quality_score frs * scoreWeight "code_quality" +
          scoreAvg FileReviewInfo.security_score frs * scoreWeight "security" +
          scoreAvg FileReviewInfo.business_score frs * scoreWeight "business" +
          scoreAvg FileReviewInfo.performance_score frs * scoreWeight "performance" +
          scoreAvg FileReviewInfo.best_practices_score frs * scoreWeight "best_practices") ∧
      ∃ z : Int, (calculate_overall_scores frs).overall_score = (z : Rat) / 10) ∧
    ((calculate_overall_scores frs).code_quality_score =
        roundTo1 (scoreAvg FileReviewInfo.code_quality_score frs) ∧
      ∃ z : Int, (calculate_overall_scores frs).code_quality_score = (z : Rat) / 10) ∧
    ((calculate_overall_scores frs).security_score =
        roundTo1 (scoreAvg FileReviewInfo.security_score frs) ∧
      ∃ z : Int, (calculate_overall_scores frs).security_score = (z : Rat) / 10) ∧
    ((calculate_overall_scores frs).business_score =
        roundTo1 (scoreAvg FileReviewInfo.business_score frs) ∧
      ∃ z : Int, (calculate_overall_scores frs).business_score = (z : Rat) / 10) ∧
    ((calculate_overall_scores frs).performance_score =
        some (roundTo1 (scoreAvg FileReviewInfo.performance_score frs)) ∧
      ∃ z : Int, (calculate_overall_scores frs).performance_score = some ((z : Rat) / 10)) ∧
    ((calculate_overall_scores frs).best_practices_score =
        some (roundTo1 (scoreAvg FileReviewInfo.best_practices_score frs)) ∧
      ∃ z : Int, (calculate_overall_scores frs).best_practices_score = some ((z : Rat) / 10)) := by
  match frs, h with
  | a :: l, _ =>
      exact ⟨⟨rfl, ⟨_, rfl⟩⟩, ⟨rfl, ⟨_, rfl⟩⟩, ⟨rfl, ⟨_, rfl⟩⟩, ⟨rfl, ⟨_, rfl⟩⟩,
        ⟨rfl, ⟨_, rfl⟩⟩, ⟨rfl, ⟨_, rfl⟩⟩⟩

/-- Witness for C10 at a concrete two-file input. -/
theorem C10_scores_one_decimal_witness :
    (([⟨"h.py", 85, 85, 85, 85, 85, 85, [], [], ""⟩,
       ⟨"i.py", 95, 95, 95, 95, 95, 95, [], [], ""⟩] : List FileReviewInfo) ≠ []) ∧
    ((calculate_overall_scores
        [⟨"h.py", 85, 85, 85, 85, 85, 85, [], [], ""⟩,
         ⟨"i.py", 95, 95, 95, 95, 95, 95, [], [], ""⟩]).code_quality_score =
      roundTo1 (scoreAvg FileReviewInfo.code_quality_score
        [⟨"h.py", 85, 85, 85, 85, 85, 85, [], [], ""⟩,
         ⟨"i.py", 95, 95, 95, 95, 95, 95, [], [], ""⟩]) ∧
      ∃ z : Int,
        (calculate_overall_scores
          [⟨"h.py", 85, 85, 85, 85, 85, 85, [], [], ""⟩,
           ⟨"i.py", 95, 95, 95, 95, 95, 95, [], [], ""⟩]).code_quality_score =
          (z : Rat) / 10) :=
  ⟨by decide,
    (C10_scores_one_decimal
      [⟨"h.py", 85, 85, 85, 85, 85, 85, [], [], ""⟩,
       ⟨"i.py", 95, 95, 95, 95, 95, 95, [], [], ""⟩] (by decide)).2.1⟩

/-- Python whitespace characters (the ASCII ones `\s` matches on the inputs
considered here). -/
def isPySpace (c : Char) : Bool :=
  c == ' ' || c == '\t' || c == '\n' || c == '\r' || c == '\x0b' || c == '\x0c'

/-- Embeds Python `text.split(sep)` for a one-character separator: splits at
every occurrence and keeps empty pieces, so the result is always
non-empty. -/
def pySplit (sep : Char) : List Char → List (List Char)
  | [] => [[]]
  | c :: rest =>
      match pySplit sep rest with
      | [] => [[c]]
      | h :: t => if c = sep then [] :: h :: t else (c :: h) :: t

lemma pySplit_exists_cons (sep : Char) (l : List Char) :
    ∃ hd tl, pySplit sep l = hd :: tl := by
  induction l with
  | nil => exact ⟨[], [], rfl⟩
  | cons c rest ih =>
      obtain ⟨hd, tl, h⟩ := ih
      simp only [pySplit, h]
      by_cases hc : c = sep
      · exact ⟨[], hd :: tl, by simp [hc]⟩
      · exact ⟨c :: hd, tl, by simp [hc]⟩

lemma pySplit_ne_nil (sep : Char) (l : List Char) : pySplit sep l ≠ [] := by
  obtain ⟨hd, tl, h⟩ := pySplit_exists_cons sep l
  simp [h]

lemma pySplit_append_sep (sep : Char) (a b : List Char) :
    pySplit sep (a ++ sep :: b) = pySplit sep a ++ pySplit sep b := by
  induction a with
  | nil =>
      obtain ⟨hd, tl, h⟩ := pySplit_exists_cons sep b
      simp [pySplit, h]
  | cons c a' ih =>
      obtain ⟨hd, tl, h⟩ := pySplit_exists_cons sep a'
      have hfull : pySplit sep (a' ++ sep :: b) = hd :: (tl ++ pySplit sep b) := by
        rw [ih, h, List.cons_append]
      simp only [List.cons_append, pySplit, List.append_eq]
      rw [hfull, h]
      by_cases hc : c = sep <;> simp [hc]

lemma pySplit_no_sep (sep : Char) (l : List Char) (h : sep ∉ l) :
    pySplit sep l = [l] := by
  induction l with
  | nil => rfl
  | cons c rest ih =>
      have hc : c ≠ sep := fun hEq => h (hEq ▸ List.mem_cons_self c rest)
      have hrest : sep ∉ rest := fun hm => h (List.mem_cons_of_mem c hm)
      simp only [pySplit, ih hrest]
      simp [fun hEq => hc hEq]

lemma pySplit_mem_no_sep (sep : Char) (l : List Char) :
    ∀ x ∈ pySplit sep l, sep ∉ x := by
  induction l with
  | nil =>
      intro x hx
      simp [pySplit] at hx
      simp [hx]
  | cons c rest ih =>
      obtain ⟨hd, tl, h⟩ := pySplit_exists_cons sep rest
      intro x hx
      simp only [pySplit, h] at hx
      by_cases hc : c = sep
      · rw [if_pos hc] at hx
        rcases List.mem_cons.mp hx with rfl | hx'
        · simp
        · exact ih x (by rw [h]; exact hx')
      · rw [if_neg hc] at hx
        rcases List.mem_cons.mp hx with rfl | hx'
        · intro hmem
          rcases List.mem_cons.mp hmem with rfl | hmem'
          · exact hc rfl
          · exact ih hd (by rw [h]; exact List.mem_cons_self hd tl) hmem'
        · exact ih x (by rw [h]; exact List.mem_cons_of_mem hd hx')

/-- The hard character-chunking loop of `_split_comment` from
`src/pulse_guard/platforms/base.py` (lines 164-171): `for i in range(0,
len(line), chunk_size)` with a "..." marker appended to every chunk that has
a successor.  `chunkSize = 0` never reaches this function (the caller
models the Python `ValueError` instead), and an empty line yields no chunks
because the Python range is empty. -/
def hardChunks (chunkSize : Nat) (line : List Char) : List (List Char) :=
  if chunkSize = 0 then []
  else if line = [] then []
  else if line.length ≤ chunkSize then [line]
  else (line.take chunkSize ++ ['.', '.', '.']) :: hardChunks chunkSize (line.drop chunkSize)
termination_by line.length
decreasing_by
  simp only [List.length_drop]
  omega

lemma hardChunks_length_le_aux (k : Nat) (hk : 1 ≤ k) :
    ∀ (n : Nat) (line : List Char), line.length ≤ n →
      ∀ chunk ∈ hardChunks k line, chunk.length ≤ k + 3 := by
  intro n
  induction n with
  | zero =>
      intro line hlen chunk hchunk
      have hnil : line = [] := List.length_eq_zero.mp (Nat.le_zero.mp hlen)
      subst hnil
      rw [hardChunks, if_neg (by omega), if_pos rfl] at hchunk
      simp at hchunk
  | succ m ih =>
      intro line hlen chunk hchunk
      rw [hardChunks, if_neg (by omega)] at hchunk
      by_cases hline : line = []
      · rw [if_pos hline] at hchunk
        simp at hchunk
      · rw [if_neg hline] at hchunk
        by_cases hshort : line.length ≤ k
        · rw [if_pos hshort] at hchunk
          simp at hchunk
          subst hchunk
          omega
        · rw [if_neg hshort] at hchunk
          rcases List.mem_cons.mp hchunk with rfl | hmem
          · have hmin : min k line.length = k := min_eq_left (by omega)
            simp [List.length_take, hmin]
          · refine ih (line.drop k) ?_ chunk hmem
            simp only [List.length_drop]
            omega

lemma hardChunks_length_le (k : Nat) (hk : 1 ≤ k) (line : List Char) :
    ∀ chunk ∈ hardChunks k line, chunk.length ≤ k + 3 :=
  hardChunks_length_le_aux k hk line.length line (Nat.le_refl _)

/-- The line-accumulation loop of `PlatformProvider._split_comment` from
`src/pulse_guard/platforms/base.py` (lines 147-178), as a recursion over the
remaining lines with the accumulated `parts` and `current_part` as state.
The Python length test `len(test_part) <= max_length - 100` is integer
arithmetic, hence the `Int` casts.  When a hard split is reached with
`max_length - 100 == 0` the Python `range` raises `ValueError` (modelled by
`none`); with a negative step the range is empty and the line is silently
dropped. -/
def splitLoop (maxL : Nat) :
    List (List Char) → List (List Char) → List Char → Option (List (List Char))
  | [], parts, current =>
      some (parts ++ (if current = [] then [] else [current]))
  | line :: rest, parts, current =>
      if ((current ++ (if current = [] then [] else ['\n']) ++ line).length : Int) ≤
          (maxL : Int) - 100 then
        splitLoop maxL rest parts (current ++ (if current = [] then [] else ['\n']) ++ line)
      else if current ≠ [] then
        splitLoop maxL rest (parts ++ [current]) line
      else if (maxL : Int) - 100 < (line.length : Int) then
        if (maxL : Int) - 100 = 0 then Option.none
        else if (maxL : Int) - 100 < 0 then splitLoop maxL rest parts []
        else splitLoop maxL rest (parts ++ hardChunks (maxL - 100) line) []
      else
        splitLoop maxL rest parts line

/-- Embeds `PlatformProvider._split_comment` (lines 134-179): return the
comment whole when it fits, otherwise split it into lines and run the
accumulation loop. -/
def split_comment (maxL : Nat) (comment : List Char) : Option (List (List Char)) :=
  if comment.length ≤ maxL then some [comment]
  else splitLoop maxL (pySplit '\n' comment) [] []

/-- Counterexample for C4: budget 101, comment consisting of an empty first
line, the line "a", and a 102-character line.  The splitter emits the
102-character line as a segment of length 102 > 101 (an over-long line that
follows a non-empty accumulated part is never hard-split), and the leading
empty line is dropped, so the emitted segments do not reproduce the original
line sequence either. -/
theorem C4_counterexample :
    split_comment 101 ('\n' :: 'a' :: '\n' :: List.replicate 102 'b') =
      some [['a'], List.replicate 102 'b'] ∧
    101 < (List.replicate 102 'b').length ∧
    ((([['a'], List.replicate 102 'b']).map (pySplit '\n')).flatten ≠
      pySplit '\n' ('\n' :: 'a' :: '\n' :: List.replicate 102 'b')) := by
  refine ⟨by decide, by decide, by decide⟩

lemma splitLoop_inv (maxL : Nat) (h100 : 100 < maxL) :
    ∀ (rest : List (List Char)) (current : List Char) (parts : List (List Char)),
      current ≠ [] → current.length ≤ maxL - 100 →
      (∀ l ∈ rest, l ≠ [] ∧ l.length ≤ maxL - 100 ∧ '\n' ∉ l) →
      ∃ out, splitLoop maxL rest parts current = some (parts ++ out) ∧
        (∀ p ∈ out, p.length ≤ maxL - 100) ∧
        (out.map (pySplit '\n')).flatten = pySplit '\n' current ++ rest := by
  intro rest
  induction rest with
  | nil =>
      intro current parts hne hlen _
      refine ⟨[current], ?_, ?_, ?_⟩
      · simp [splitLoop, hne]
      · intro p hp
        simp at hp
        subst hp
        exact hlen
      · simp
  | cons line rest' ih =>
      intro current parts hne hlen hrest
      obtain ⟨hlne, hllen, hlnl⟩ := hrest line (List.mem_cons_self _ _)
      have hrest' : ∀ l ∈ rest', l ≠ [] ∧ l.length ≤ maxL - 100 ∧ '\n' ∉ l :=
        fun l hl => hrest l (List.mem_cons_of_mem _ hl)
      simp only [splitLoop, if_neg hne]
      by_cases htest :
          ((current ++ ['\n'] ++ line).length : Int) ≤ (maxL : Int) - 100
      · rw [if_pos htest]
        have hne' : current ++ ['\n'] ++ line ≠ [] := by simp
        have hlen' : (current ++ ['\n'] ++ line).length ≤ maxL - 100 := by
          have h2 := htest
          simp only [List.length_append] at h2 ⊢
          omega
        obtain ⟨out, hrun, hbound, hflat⟩ := ih (current ++ ['\n'] ++ line) parts hne' hlen' hrest'
        refine ⟨out, hrun, hbound, ?_⟩
        rw [hflat]
        have hps : pySplit '\n' (current ++ ['\n'] ++ line) = pySplit '\n' current ++ [line] := by
          rw [List.append_assoc, List.singleton_append, pySplit_append_sep,
            pySplit_no_sep _ _ hlnl]
        rw [hps, List.append_assoc, List.singleton_append]
      · rw [if_neg htest, if_pos hne]
        obtain ⟨out, hrun, hbound, hflat⟩ := ih line (parts ++ [current]) hlne hllen hrest'
        refine ⟨current :: out, ?_, ?_, ?_⟩
        · rw [hrun, List.append_assoc, List.singleton_append]
        · intro p hp
          rcases List.mem_cons.mp hp with rfl | hp'
          · exact hlen
          · exact hbound p hp'
        · simp only [List.map_cons, List.flatten_cons, hflat,
            pySplit_no_sep '\n' line hlnl, List.singleton_append]

/-- Fuel-driven decimal digits of a natural number (the fuel n+1 always
suffices); embeds Python `str(i)` for non-negative i. -/
def natToDecimalAux : Nat → Nat → List Char
  | 0, _ => []
  | fuel + 1, n =>
      if n < 10 then [Char.ofNat (48 + n)]
      else natToDecimalAux fuel (n / 10) ++ [Char.ofNat (48 + n % 10)]

/-- Decimal representation of a natural number as characters. -/
def natToDecimal (n : Nat) : List Char := natToDecimalAux (n + 1) n

/-- The position-marker header prepended to segment i (1-based) of total in
`PlatformProvider.post_pr_comments_batch` (line 118). -/
def mkPartHeader (i total : Nat) : List Char :=
  ['*', '*', '📝', ' ', '代', '码', '审', '查', '报', '告', ' ', '('] ++ natToDecimal i ++
    ['/'] ++ natToDecimal total ++ [')', '*', '*', '\n', '\n']

/-- C4 (amended): for budgets above the 100-character header reserve and
comments longer than the budget whose every line is non-empty and fits the
usable budget `max_length - 100`, every emitted segment is at most
`max_length - 100` characters (so a segment with its position header fits in
`max_length` whenever the two position numbers take at most 82 characters),
and the segments, re-split into lines, reproduce the original line sequence
exactly; moreover every hard-split chunk is bounded by its chunk size plus
the 3-character boundary marker.  (The unrestricted claim is false: see the
counterexample, where an over-long line following a non-empty accumulated
segment is emitted whole and a leading empty line is dropped.) -/
theorem C4_split_bounded (maxL : Nat) (comment : List Char)
    (h100 : 100 < maxL) (hlong : maxL < comment.length)
    (hlines : ∀ l ∈ pySplit '\n' comment, l ≠ [] ∧ l.length ≤ maxL - 100) :
    ∃ parts, split_comment maxL comment = some parts ∧
      (∀ p ∈ parts, p.length ≤ maxL - 100) ∧
      (parts.map (pySplit '\n')).flatten = pySplit '\n' comment ∧
      (∀ i p, parts.get? i = some p →
        (natToDecimal (i + 1)).length + (natToDecimal parts.length).length ≤ 82 →
        (mkPartHeader (i + 1) parts.length ++ p).length ≤ maxL) ∧
      (∀ (k : Nat) (line : List Char), 1 ≤ k →
        ∀ chunk ∈ hardChunks k line, chunk.length ≤ k + 3) := by
  obtain ⟨l1, ls, hsplit⟩ := pySplit_exists_cons '\n' comment
  have h1mem : l1 ∈ pySplit '\n' comment := by
    rw [hsplit]
    exact List.mem_cons_self _ _
  obtain ⟨h1ne, h1len⟩ := hlines l1 h1mem
  have hnosep := pySplit_mem_no_sep '\n' comment
  have hrest : ∀ l ∈ ls, l ≠ [] ∧ l.length ≤ maxL - 100 ∧ '\n' ∉ l := by
    intro l hl
    have hm : l ∈ pySplit '\n' comment := by
      rw [hsplit]
      exact List.mem_cons_of_mem _ hl
    exact ⟨(hlines l hm).1, (hlines l hm).2, hnosep l hm⟩
  unfold split_comment
  rw [if_neg (by omega), hsplit]
  have hstep : splitLoop maxL (l1 :: ls) [] [] = splitLoop maxL ls [] l1 := by
    simp only [splitLoop, if_true, List.nil_append]
    rw [if_pos (show ((l1.length : Int) ≤ (maxL : Int) - 100) by omega)]
  rw [hstep]
  obtain ⟨out, hrun, hbound, hflat⟩ := splitLoop_inv maxL h100 ls l1 [] h1ne h1len hrest
  rw [List.nil_append] at hrun
  refine ⟨out, hrun, hbound, ?_, ?_, fun k line hk => hardChunks_length_le k hk line⟩
  · rw [hflat, pySplit_no_sep '\n' l1 (hnosep l1 h1mem), List.singleton_append]
  · intro i p hp hdig
    have hb := hbound p (List.get?_mem hp)
    rw [List.length_append]
    have hhead : (mkPartHeader (i + 1) out.length).length =
        18 + (natToDecimal (i + 1)).length + (natToDecimal out.length).length := by
      simp only [mkPartHeader, List.length_append, List.length_cons, List.length_nil,
        List.length_singleton]
      omega
    omega

set_option maxRecDepth 10000 in
/-- Witness for C4: budget 120, a comment of seven non-empty 19-character
lines (length 139 > 120), satisfies the hypotheses. -/
theorem C4_split_bounded_witness :
    (100 < 120 ∧
      120 < (List.intercalate ['\n'] (List.replicate 7 (List.replicate 19 'a'))).length ∧
      ∀ l ∈ pySplit '\n' (List.intercalate ['\n'] (List.replicate 7 (List.replicate 19 'a'))),
        l ≠ [] ∧ l.length ≤ 120 - 100) ∧
    (∃ parts,
      split_comment 120 (List.intercalate ['\n'] (List.replicate 7 (List.replicate 19 'a'))) =
        some parts ∧
      (∀ p ∈ parts, p.length ≤ 120 - 100) ∧
      (parts.map (pySplit '\n')).flatten =
        pySplit '\n' (List.intercalate ['\n'] (List.replicate 7 (List.replicate 19 'a'))) ∧
      (∀ i p, parts.get? i = some p →
        (natToDecimal (i + 1)).length + (natToDecimal parts.length).length ≤ 82 →
        (mkPartHeader (i + 1) parts.length ++ p).length ≤ 120) ∧
      (∀ (k : Nat) (line : List Char), 1 ≤ k →
        ∀ chunk ∈ hardChunks k line, chunk.length ≤ k + 3)) :=
  ⟨⟨by decide, by decide, by decide⟩,
    C4_split_bounded 120 (List.intercalate ['\n'] (List.replicate 7 (List.replicate 19 'a')))
      (by decide) (by decide) (by decide)⟩

/-- One entry of the list returned by
`PlatformProvider.post_pr_comments_batch`: either the platform response for
a posted segment, or the error record `{"error": str(e), "part": i+1}`
appended when posting that segment raised. -/
inductive BatchEntry (α : Type) where
  | posted (r : α)
  | failed (msg : String) (part : Nat)
deriving DecidableEq

/-- The text actually posted for segment i (0-based) in
`post_pr_comments_batch` (lines 115-120): the position header is prepended
only when there is more than one segment. -/
def headeredPart (parts : List (List Char)) (i : Nat) (part : List Char) : List Char :=
  if 1 < parts.length then mkPartHeader (i + 1) parts.length ++ part else part

/-- One iteration of the posting loop of `post_pr_comments_batch` (lines
122-130): try to post the headered segment; on an exception record an error
entry carrying the 1-based part number. -/
def batchEntryFor {α : Type} (post : List Char → Except String α)
    (parts : List (List Char)) (i : Nat) (part : List Char) : BatchEntry α :=
  match post (headeredPart parts i part) with
  | Except.ok r => BatchEntry.posted r
  | Except.error e => BatchEntry.failed e (i + 1)

/-- Embeds `PlatformProvider.post_pr_comments_batch` from
`src/pulse_guard/platforms/base.py` (lines 93-132).  The external
`post_pr_comment` HTTP call is the oracle `post`.  A short comment is posted
directly OUTSIDE any try block, so an exception there propagates
(`Except.error`); in the multi-segment loop each failure is caught and
recorded as an entry while the remaining segments are still attempted. -/
def post_pr_comments_batch {α : Type} (post : List Char → Except String α)
    (comment : List Char) (maxL : Nat) : Except String (List (BatchEntry α)) :=
  if comment.length ≤ maxL then
    match post comment with
    | Except.ok r => Except.ok [BatchEntry.posted r]
    | Except.error e => Except.error e
  else
    match split_comment maxL comment with
    | Option.none => Except.error "range() arg 3 must not be zero"
    | some parts =>
        Except.ok (parts.enum.map (fun p => batchEntryFor post parts p.1 p.2))

/-- C9: for every segmented comment (one the splitter actually splits), the
batch publisher returns exactly one entry per segment, in segment order;
the i-th entry is the success record when posting the i-th (headered)
segment succeeds and the error record naming part i+1 when it raises, and
every entry is computed from its own segment alone, so one failure never
prevents the remaining segments from being attempted. -/
theorem C9_batch_per_segment {α : Type} (post : List Char → Except String α)
    (comment : List Char) (maxL : Nat) (parts : List (List Char))
    (hlong : maxL < comment.length)
    (hsplit : split_comment maxL comment = some parts) :
    ∃ entries, post_pr_comments_batch post comment maxL = Except.ok entries ∧
      entries.length = parts.length ∧
      ∀ i p, parts.get? i = some p →
        entries.get? i = some (batchEntryFor post parts i p) := by
  unfold post_pr_comments_batch
  rw [if_neg (by omega), hsplit]
  refine ⟨_, rfl, ?_, ?_⟩
  · rw [List.length_map, List.enum_length]
  · intro i p hp
    rw [List.get?_map, List.get?_enum, hp]
    rfl

set_option maxRecDepth 10000 in
/-- Witness for C9: budget 110 and a comment of thirteen 8-character lines,
which splits into thirteen one-line segments, with a posting oracle that
rejects long texts. -/
theorem C9_batch_per_segment_witness :
    (110 < (List.intercalate ['\n'] (List.replicate 13 (List.replicate 8 'a'))).length ∧
      split_comment 110 (List.intercalate ['\n'] (List.replicate 13 (List.replicate 8 'a'))) =
        some (List.replicate 13 (List.replicate 8 'a'))) ∧
    (∃ entries,
      post_pr_comments_batch
        (fun s => if 30 ≤ s.length then Except.error "too long" else Except.ok s.length)
        (List.intercalate ['\n'] (List.replicate 13 (List.replicate 8 'a'))) 110 =
        Except.ok entries ∧
      entries.length = (List.replicate 13 (List.replicate 8 'a')).length ∧
      ∀ i p, (List.replicate 13 (List.replicate 8 'a')).get? i = some p →
        entries.get? i = some (batchEntryFor
          (fun s => if 30 ≤ s.length then Except.error "too long" else Except.ok s.length)
          (List.replicate 13 (List.replicate 8 'a')) i p)) :=
  ⟨⟨by decide, by decide⟩, by
    exact C9_batch_per_segment
      (fun s => if 30 ≤ s.length then Except.error "too long" else Except.ok s.length)
      (List.intercalate ['\n'] (List.replicate 13 (List.replicate 8 'a'))) 110
      (List.replicate 13 (List.replicate 8 'a')) (by decide) (by decide)⟩

/-- A decoded JSON value. -/
inductive JVal where
  | null
  | bool (b : Bool)
  | num (n : Int)
  | str (s : List Char)
  | arr (xs : List JVal)
  | obj (kvs : List (List Char × JVal))

/-- JSON whitespace (what Python `json.loads` skips between tokens). -/
def jsonWs (c : Char) : Bool := c == ' ' || c == '\t' || c == '\n' || c == '\r'

/-- Skip JSON whitespace. -/
def skipJWs (s : List Char) : List Char := s.dropWhile jsonWs

/-- Parse the body of a JSON string after the opening quote, up to the
closing quote; escape sequences are outside the modelled fragment. -/
def parseJString : List Char → Option (List Char × List Char)
  | [] => Option.none
  | c :: rest =>
      if c = '"' then some ([], rest)
      else if c = '\\' then Option.none
      else (parseJString rest).map (fun p => (c :: p.1, p.2))

/-- Numeric value of a digit run. -/
def digitsVal (ds : List Char) : Nat :=
  ds.foldl (fun acc c => acc * 10 + (c.toNat - 48)) 0

/-- Parse an integer literal (optional minus sign, then digits). -/
def parseJInt : List Char → Option (Int × List Char)
  | '-' :: rest =>
      if rest.takeWhile Char.isDigit = [] then Option.none
      else some (-(digitsVal (rest.takeWhile Char.isDigit) : Int),
        rest.drop (rest.takeWhile Char.isDigit).length)
  | s =>
      if s.takeWhile Char.isDigit = [] then Option.none
      else some ((digitsVal (s.takeWhile Char.isDigit) : Int),
        s.drop (s.takeWhile Char.isDigit).length)

/-- Parse a scalar JSON value: string, integer, true, false or null. -/
def parseJScalar (s : List Char) : Option (JVal × List Char) :=
  match s with
  | '"' :: rest => (parseJString rest).map (fun p => (JVal.str p.1, p.2))
  | _ =>
      if ("true".data).isPrefixOf s then some (JVal.bool true, s.drop 4)
      else if ("false".data).isPrefixOf s then some (JVal.bool false, s.drop 5)
      else if ("null".data).isPrefixOf s then some (JVal.null, s.drop 4)
      else (parseJInt s).map (fun p => (JVal.num p.1, p.2))

/-- Parse the members of an object whose values are scalars, starting after
the opening brace (at least one member). -/
def parseScalarMembers : Nat → List Char → List (List Char × JVal) →
    Option (List (List Char × JVal) × List Char)
  | 0, _, _ => Option.none
  | fuel + 1, s, acc =>
      match skipJWs s with
      | '"' :: rest =>
          match parseJString rest with
          | Option.none => Option.none
          | some (k, r1) =>
              match skipJWs r1 with
              | ':' :: r2 =>
                  match parseJScalar (skipJWs r2) with
                  | Option.none => Option.none
                  | some (v, r3) =>
                      match skipJWs r3 with
                      | ',' :: r4 => parseScalarMembers fuel r4 (acc ++ [(k, v)])
                      | '}' :: r4 => some (acc ++ [(k, v)], r4)
                      | _ => Option.none
              | _ => Option.none
      | _ => Option.none

/-- Parse an object whose values are scalars, starting at the opening
brace. -/
def parseScalarObject (fuel : Nat) (s : List Char) : Option (JVal × List Char) :=
  match s with
  | '{' :: rest =>
      match skipJWs rest with
      | '}' :: r => some (JVal.obj [], r)
      | _ => (parseScalarMembers fuel rest []).map (fun p => (JVal.obj p.1, p.2))
  | _ => Option.none

/-- Parse the items of an array (scalars or scalar-valued objects), starting
after the opening bracket (at least one item). -/
def parseArrayItems : Nat → List Char → List JVal → Option (List JVal × List Char)
  | 0, _, _ => Option.none
  | fuel + 1, s, acc =>
      match
        (match skipJWs s with
         | '{' :: _ => parseScalarObject fuel (skipJWs s)
         | other => parseJScalar other) with
      | Option.none => Option.none
      | some (v, r1) =>
          match skipJWs r1 with
          | ',' :: r2 => parseArrayItems fuel r2 (acc ++ [v])
          | ']' :: r2 => some (acc ++ [v], r2)
          | _ => Option.none

/-- Parse the members of the top-level object: values may be scalars,
arrays of scalars or scalar-valued objects, or scalar-valued objects. -/
def parseTopMembers : Nat → List Char → List (List Char × JVal) →
    Option (List (List Char × JVal) × List Char)
  | 0, _, _ => Option.none
  | fuel + 1, s, acc =>
      match skipJWs s with
      | '"' :: rest =>
          match parseJString rest with
          | Option.none => Option.none
          | some (k, r1) =>
              match skipJWs r1 with
              | ':' :: r2 =>
                  match
                    (match skipJWs r2 with
                     | '{' :: _ => parseScalarObject fuel (skipJWs r2)
                     | '[' :: rr =>
                         (match skipJWs rr with
                          | ']' :: r3 => some (JVal.arr [], r3)
                          | _ => (parseArrayItems fuel rr []).map
                              (fun p => (JVal.arr p.1, p.2)))
                     | other => parseJScalar other) with
                  | Option.none => Option.none
                  | some (v, r3) =>
                      match skipJWs r3 with
                      | ',' :: r4 => parseTopMembers fuel r4 (acc ++ [(k, v)])
                      | '}' :: r4 => some (acc ++ [(k, v)], r4)
                      | _ => Option.none
              | _ => Option.none
      | _ => Option.none

/-- Modelled from the spec: strict JSON decoding as performed by the
standard library decoder (`json.loads`) that the repository calls in
`_try_parse_json` — this external decoder is not part of the repository
source.  The model covers the fragment the review schema uses: a top-level
object whose values are escape-free strings, integers, booleans, null,
scalar-valued objects, or arrays of scalars and scalar-valued objects;
inputs outside the fragment are rejected (`none`). -/
def jsonDecode (s : List Char) : Option JVal :=
  match skipJWs s with
  | '{' :: rest =>
      match skipJWs rest with
      | '}' :: r => if skipJWs r = [] then some (JVal.obj []) else Option.none
      | _ =>
          match parseTopMembers s.length rest [] with
          | some (kvs, r) => if skipJWs r = [] then some (JVal.obj kvs) else Option.none
          | Option.none => Option.none
  | _ => Option.none

/-- Embeds the anchored substitution `^```json\s*` of `_fix_json_format`:
strip a leading json code-fence marker and the whitespace after it. -/
def stripFenceJsonStart (s : List Char) : List Char :=
  if ("```json".data).isPrefixOf s then (s.drop 7).dropWhile isPySpace else s

/-- Drop trailing Python whitespace. -/
def dropTrailingWs (l : List Char) : List Char :=
  (l.reverse.dropWhile isPySpace).reverse

/-- Embeds the substitution `\s*```$` of `_fix_json_format`: without
MULTILINE, `$` matches at the end of the string or just before a final
newline, so a trailing fence (with the whitespace run before it) is removed
in either position. -/
def stripFenceEnd (s : List Char) : List Char :=
  if ("```".data).isSuffixOf s then dropTrailingWs (s.take (s.length - 3))
  else if ("```\n".data).isSuffixOf s then
    dropTrailingWs (s.take (s.length - 4)) ++ ['\n']
  else s

/-- Embeds the anchored substitution `^```\s*` of `_fix_json_format`. -/
def stripFence3Start (s : List Char) : List Char :=
  if ("```".data).isPrefixOf s then (s.drop 3).dropWhile isPySpace else s

/-- A left-token recognizer for the missing-comma substitutions: given the
text at the scan position, return the matched token and the remainder, or
`none` when the pattern cannot start here. -/
def TrigFun : Type := List Char → Option (List Char × List Char)

/-- Recognizer for the `"` of the substitution on the pattern consisting of
a quote, an inline whitespace run containing a newline, and a quote. -/
def trigQuote : TrigFun := fun l =>
  match l with
  | [] => Option.none
  | c :: rest => if c = '"' then some (['"'], rest) else Option.none

/-- Recognizer for the digit run of the corresponding substitution. -/
def trigDigits : TrigFun := fun l =>
  if l.takeWhile Char.isDigit = [] then Option.none
  else some (l.takeWhile Char.isDigit, l.drop (l.takeWhile Char.isDigit).length)

/-- Recognizer for the boolean literal of the corresponding substitution
(the regex alternation tries true before false). -/
def trigBool : TrigFun := fun l =>
  if ("true".data).isPrefixOf l then some ("true".data, l.drop 4)
  else if ("false".data).isPrefixOf l then some ("false".data, l.drop 5)
  else Option.none

/-- Recognizer for the closing bracket of the corresponding substitution. -/
def trigBracket : TrigFun := fun l =>
  match l with
  | [] => Option.none
  | c :: rest => if c = ']' then some ([']'], rest) else Option.none

/-- Recognizer for the closing brace of the corresponding substitution. -/
def trigBrace : TrigFun := fun l =>
  match l with
  | [] => Option.none
  | c :: rest => if c = '}' then some (['}'], rest) else Option.none

/-- The common left-to-right scan of the five missing-comma substitutions of
`_fix_json_format` (graph.py lines 978-988): at each position, if the
recognized token is followed by a whitespace run containing a newline and
then a double quote, emit the token, a comma, a newline, four spaces and the
quote, and continue after the consumed quote; otherwise move one character.
The regex engine consumes exactly the whole whitespace run, since the final
quote must follow it.  Fuel bounds the number of scan steps; the callers
pass the text length, which always suffices since every step consumes at
least one character. -/
def insertCommaSub (trig : TrigFun) : Nat → List Char → List Char
  | 0, l => l
  | _ + 1, [] => []
  | fuel + 1, c :: rest =>
      match trig (c :: rest) with
      | some (tok, after) =>
          if '\n' ∈ after.takeWhile isPySpace ∧
              (after.dropWhile isPySpace).head? = some '"' then
            tok ++ (',' :: '\n' :: ' ' :: ' ' :: ' ' :: ' ' :: '"' ::
              insertCommaSub trig fuel (after.dropWhile isPySpace).tail)
          else c :: insertCommaSub trig fuel rest
      | Option.none => c :: insertCommaSub trig fuel rest

/-- The scan of the extra-comma substitutions `,\s*}` and `,\s*]`
(graph.py lines 991-992): a comma followed by a whitespace run and the
closing character is replaced by the closing character alone. -/
def dropCommaSub (close : Char) : Nat → List Char → List Char
  | 0, l => l
  | _ + 1, [] => []
  | fuel + 1, c :: rest =>
      if c = ',' ∧ (rest.dropWhile isPySpace).head? = some close then
        close :: dropCommaSub close fuel (rest.dropWhile isPySpace).tail
      else c :: dropCommaSub close fuel rest

/-- Embeds Python `str.strip()`. -/
def pyStrip (l : List Char) : List Char :=
  ((l.dropWhile isPySpace).reverse.dropWhile isPySpace).reverse

/-- Embeds `_fix_json_format` from `src/pulse_guard/agent/graph.py` (lines
968-1005): strip markdown fences, insert separators that look missing before
a quoted key on the next line, remove commas standing directly before a
closing brace or bracket, strip, drop one trailing comma, and append the
deficit of closing braces and brackets. -/
def fix_json_format (s : List Char) : List Char :=
  let s1 := stripFenceJsonStart s
  let s2 := stripFenceEnd s1
  let s3 := stripFence3Start s2
  let s4 := insertCommaSub trigQuote s3.length s3
  let s5 := insertCommaSub trigDigits s4.length s4
  let s6 := insertCommaSub trigBool s5.length s5
  let s7 := insertCommaSub trigBracket s6.length s6
  let s8 := insertCommaSub trigBrace s7.length s7
  let s9 := dropCommaSub '}' s8.length s8
  let s10 := dropCommaSub ']' s9.length s9
  let s11 := pyStrip s10
  let s12 := if s11.getLast? = some ',' then s11.take (s11.length - 1) else s11
  let s13 := s12 ++ List.replicate (s12.count '{' - s12.count '}') '}'
  s13 ++ List.replicate (s13.count '[' - s13.count ']') ']'

/-- Counterexample for C5: the input is the syntactically valid,
schema-conforming JSON object binding key a to the string value x,}y (the
value contains a comma directly before a closing brace).  The repair pass
rewrites the `,}` inside the string literal, so decoding after repair gives
the different value x}y: the repair is NOT a no-op on this already-valid
input. -/
theorem C5_counterexample :
    jsonDecode ['{', '"', 'a', '"', ':', '"', 'x', ',', '}', 'y', '"', '}'] =
      some (JVal.obj [(['a'], JVal.str ['x', ',', '}', 'y'])]) ∧
    fix_json_format ['{', '"', 'a', '"', ':', '"', 'x', ',', '}', 'y', '"', '}'] =
      ['{', '"', 'a', '"', ':', '"', 'x', '}', 'y', '"', '}'] ∧
    jsonDecode ['{', '"', 'a', '"', ':', '"', 'x', '}', 'y', '"', '}'] =
      some (JVal.obj [(['a'], JVal.str ['x', '}', 'y'])]) ∧
    (JVal.str ['x', ',', '}', 'y'] ≠ JVal.str ['x', '}', 'y']) := by
  refine ⟨rfl, rfl, rfl, ?_⟩
  intro h
  injection h with h2
  exact absurd h2 (by decide)

/-- Whether the text contains a comma followed (after inline whitespace) by
the given closing character: the no-match condition of the extra-comma
substitutions. -/
def hasCommaClose (close : Char) : List Char → Bool
  | [] => false
  | c :: rest =>
      if c = ',' ∧ (rest.dropWhile isPySpace).head? = some close then true
      else hasCommaClose close rest

lemma trigQuote_sublist :
    ∀ (s tok after : List Char), trigQuote s = some (tok, after) → after.Sublist s := by
  intro s tok after ht
  cases s with
  | nil => cases ht
  | cons c rest =>
      simp only [trigQuote] at ht
      split at ht
      · cases ht
        exact List.sublist_cons_self _ _
      · cases ht

lemma trigDigits_sublist :
    ∀ (s tok after : List Char), trigDigits s = some (tok, after) → after.Sublist s := by
  intro s tok after ht
  simp only [trigDigits] at ht
  split at ht
  · cases ht
  · cases ht
    exact List.drop_sublist _ _

lemma trigBool_sublist :
    ∀ (s tok after : List Char), trigBool s = some (tok, after) → after.Sublist s := by
  intro s tok after ht
  simp only [trigBool] at ht
  split at ht
  · cases ht
    exact List.drop_sublist _ _
  · split at ht
    · cases ht
      exact List.drop_sublist _ _
    · cases ht

lemma trigBracket_sublist :
    ∀ (s tok after : List Char), trigBracket s = some (tok, after) → after.Sublist s := by
  intro s tok after ht
  cases s with
  | nil => cases ht
  | cons c rest =>
      simp only [trigBracket] at ht
      split at ht
      · cases ht
        exact List.sublist_cons_self _ _
      · cases ht

lemma trigBrace_sublist :
    ∀ (s tok after : List Char), trigBrace s = some (tok, after) → after.Sublist s := by
  intro s tok after ht
  cases s with
  | nil => cases ht
  | cons c rest =>
      simp only [trigBrace] at ht
      split at ht
      · cases ht
        exact List.sublist_cons_self _ _
      · cases ht

lemma insertCommaSub_no_newline (trig : TrigFun)
    (htrig : ∀ s tok after, trig s = some (tok, after) → after.Sublist s) :
    ∀ (fuel : Nat) (l : List Char), '\n' ∉ l → insertCommaSub trig fuel l = l := by
  intro fuel
  induction fuel with
  | zero =>
      intro l _
      rfl
  | succ f ih =>
      intro l hl
      cases l with
      | nil => rfl
      | cons c rest =>
          have hrest : '\n' ∉ rest := fun hm => hl (List.mem_cons_of_mem c hm)
          simp only [insertCommaSub]
          cases ht : trig (c :: rest) with
          | none => rw [ih rest hrest]
          | some p =>
              obtain ⟨tok, after⟩ := p
              have hsub := htrig _ _ _ ht
              have hnafter : '\n' ∉ after := fun hm => hl (hsub.subset hm)
              have hrun : ¬ ('\n' ∈ after.takeWhile isPySpace ∧
                  (after.dropWhile isPySpace).head? = some '"') := by
                intro hc
                exact hnafter ((List.takeWhile_sublist isPySpace).subset hc.1)
              show (if '\n' ∈ after.takeWhile isPySpace ∧
                    (after.dropWhile isPySpace).head? = some '"' then
                  tok ++ (',' :: '\n' :: ' ' :: ' ' :: ' ' :: ' ' :: '"' ::
                    insertCommaSub trig f (after.dropWhile isPySpace).tail)
                else c :: insertCommaSub trig f rest) = c :: rest
              rw [if_neg hrun, ih rest hrest]

lemma dropCommaSub_id (close : Char) :
    ∀ (fuel : Nat) (l : List Char),
      hasCommaClose close l = false → dropCommaSub close fuel l = l := by
  intro fuel
  induction fuel with
  | zero =>
      intro l _
      rfl
  | succ f ih =>
      intro l hl
      cases l with
      | nil => rfl
      | cons c rest =>
          simp only [hasCommaClose] at hl
          simp only [dropCommaSub]
          by_cases hc : c = ',' ∧ (rest.dropWhile isPySpace).head? = some close
          · rw [if_pos hc] at hl
            cases hl
          · rw [if_neg hc] at hl
            rw [if_neg hc, ih rest hl]

lemma reverse_shape (mid : List Char) :
    ('{' :: (mid ++ ['}'])).reverse = '}' :: (mid.reverse ++ ['{']) := by
  simp

lemma stripFenceJsonStart_shape (mid : List Char) :
    stripFenceJsonStart ('{' :: mid) = '{' :: mid := rfl

lemma stripFence3Start_shape (mid : List Char) :
    stripFence3Start ('{' :: mid) = '{' :: mid := rfl

lemma stripFenceEnd_shape (mid : List Char) :
    stripFenceEnd ('{' :: (mid ++ ['}'])) = '{' :: (mid ++ ['}'])  := by
  unfold stripFenceEnd
  rw [if_neg, if_neg]
  · intro h
    simp only [List.isSuffixOf] at h
    rw [reverse_shape, show ("```\n".data).reverse = ['\n', '`', '`', '`'] from rfl,
      List.isPrefixOf_cons₂] at h
    simp at h
  · intro h
    simp only [List.isSuffixOf] at h
    rw [reverse_shape, show ("```".data).reverse = ['`', '`', '`'] from rfl,
      List.isPrefixOf_cons₂] at h
    simp at h

lemma pyStrip_shape (mid : List Char) :
    pyStrip ('{' :: (mid ++ ['}'])) = '{' :: (mid ++ ['}']) := by
  unfold pyStrip
  rw [List.dropWhile_cons, if_neg (by decide), reverse_shape, List.dropWhile_cons,
    if_neg (by decide), ← reverse_shape, List.reverse_reverse]

lemma getLast_shape (mid : List Char) :
    ('{' :: (mid ++ ['}'])).getLast? = some '}' := by
  rw [show ('{' :: (mid ++ ['}'])) = ('{' :: mid) ++ ['}'] from rfl]
  exact List.getLast?_concat _

/-- C5 (amended): on an input that is already syntactically valid JSON in
the modelled fragment and in addition (i) contains no newline character,
(ii) begins with an opening brace and ends with a closing brace, (iii)
contains no comma standing (possibly after inline whitespace) directly
before a closing brace or bracket — not even inside a string literal — and
(iv) has no surplus of opening braces or brackets, the repair pass
`_fix_json_format` is the identity, so decoding after repair yields exactly
the original decoded values.  Without condition (iii) the claim fails: the
extra-comma substitutions rewrite string contents (see the
counterexample). -/
theorem C5_repair_noop_on_valid (s : List Char) (v : JVal) (mid : List Char)
    (hshape : s = '{' :: (mid ++ ['}']))
    (hv : jsonDecode s = some v)
    (hnl : '\n' ∉ s)
    (hc1 : hasCommaClose '}' s = false)
    (hc2 : hasCommaClose ']' s = false)
    (hb1 : s.count '{' ≤ s.count '}')
    (hb2 : s.count '[' ≤ s.count ']') :
    fix_json_format s = s ∧ jsonDecode (fix_json_format s) = some v := by
  have hfix : fix_json_format s = s := by
    subst hshape
    simp only [fix_json_format]
    rw [stripFenceJsonStart_shape, stripFenceEnd_shape, stripFence3Start_shape]
    rw [insertCommaSub_no_newline trigQuote trigQuote_sublist _ _ hnl,
      insertCommaSub_no_newline trigDigits trigDigits_sublist _ _ hnl,
      insertCommaSub_no_newline trigBool trigBool_sublist _ _ hnl,
      insertCommaSub_no_newline trigBracket trigBracket_sublist _ _ hnl,
      insertCommaSub_no_newline trigBrace trigBrace_sublist _ _ hnl,
      dropCommaSub_id '}' _ _ hc1, dropCommaSub_id ']' _ _ hc2, pyStrip_shape]
    rw [if_neg (by rw [getLast_shape]; intro h; cases h)]
    rw [show ('{' :: (mid ++ ['}'])).count '{' - ('{' :: (mid ++ ['}'])).count '}' = 0 by
      omega]
    rw [List.replicate_zero, List.append_nil]
    rw [show ('{' :: (mid ++ ['}'])).count '[' - ('{' :: (mid ++ ['}'])).count ']' = 0 by
      omega]
    rw [List.replicate_zero, List.append_nil]
  exact ⟨hfix, by rw [hfix]; exact hv⟩

/-- Witness for C5: the valid flat object binding a to 1 satisfies every
hypothesis, and the repair leaves it unchanged. -/
theorem C5_repair_noop_witness :
    (['{', '"', 'a', '"', ':', '1', '}'] =
        '{' :: (['"', 'a', '"', ':', '1'] ++ ['}']) ∧
      jsonDecode ['{', '"', 'a', '"', ':', '1', '}'] =
        some (JVal.obj [(['a'], JVal.num 1)]) ∧
      '\n' ∉ ['{', '"', 'a', '"', ':', '1', '}'] ∧
      hasCommaClose '}' ['{', '"', 'a', '"', ':', '1', '}'] = false ∧
      hasCommaClose ']' ['{', '"', 'a', '"', ':', '1', '}'] = false) ∧
    (fix_json_format ['{', '"', 'a', '"', ':', '1', '}'] =
        ['{', '"', 'a', '"', ':', '1', '}'] ∧
      jsonDecode (fix_json_format ['{', '"', 'a', '"', ':', '1', '}']) =
        some (JVal.obj [(['a'], JVal.num 1)])) :=
  ⟨⟨rfl, rfl, by decide, rfl, rfl⟩,
    C5_repair_noop_on_valid ['{', '"', 'a', '"', ':', '1', '}']
      (JVal.obj [(['a'], JVal.num 1)]) ['"', 'a', '"', ':', '1']
      rfl rfl (by decide) rfl rfl (by decide) (by decide)⟩
